import Mathlib

/-!
Verification development for the cronprom metric collector.

The Go sources are embedded shallowly:
* `internal/data/config/config.go` — configuration structures and validation.
* `internal/services/collector/collector.go` — the `MetricCollector`:
  registration of metrics, label normalization (`cleanLabels`) and the four
  update operations.
* `internal/data/config` metric factory (`CreateMetric` / `sanitizeMetricName`)
  — present in the repository but called from nowhere; its sanitization and
  default-objectives code is embedded for comparison with the live path.

Modelling conventions: Go `float64` values are modelled as `Rat` (the only
operations performed on them are comparison, addition and storage); Go maps
are modelled as association lists with first-match lookup and in-place
insertion; Go errors are `String`s carrying the `fmt.Errorf` text; a Go panic
is a distinguished outcome (`GoResult.panicked`).  The external
`prometheus/client_golang` library is embedded only in the behavior the
collector relies on: `Registry.Register` rejects invalid and duplicate
fully-qualified names, a vector's children are keyed by the tuple of label
values in declared-label order and are created lazily at zero, and
`Counter.Add` panics for a negative value.
-/

namespace Cronprom

/-! ### The embedding: data model and operations -/

/-- Lookup in an association list, first match wins (a Go map read). -/
def lookupAssoc {κ α : Type} [DecidableEq κ] : List (κ × α) → κ → Option α
  | [], _ => none
  | (k', v) :: rest, k => if k' = k then some v else lookupAssoc rest k

/-- Insertion into an association list, replacing the first binding of the key
if present and appending otherwise (a Go map write). -/
def insertAssoc {κ α : Type} [DecidableEq κ] : List (κ × α) → κ → α → List (κ × α)
  | [], k, v => [(k, v)]
  | (k', v') :: rest, k, v =>
      if k' = k then (k, v) :: rest else (k', v') :: insertAssoc rest k v

/-- Membership test on a list of strings (Go `slices.Contains` / map-key test). -/
def memStr : List String → String → Bool
  | [], _ => false
  | x :: rest, s => if x = s then true else memStr rest s

/-- Go `MetricType` is a string type; the four enumerated values are
`"gauge"`, `"counter"`, `"histogram"`, `"summary"`, but any string can occur. -/
abbrev MetricType := String

def MetricTypeGauge : MetricType := "gauge"

def MetricTypeCounter : MetricType := "counter"

def MetricTypeHistogram : MetricType := "histogram"

def MetricTypeSummary : MetricType := "summary"

/-- One metric configuration (struct `MetricConfig`).  `float64` fields are
modelled as `Rat`; the `Objectives` map as an association list; the Go field
`Type` is spelled `Typ` (`Type` is reserved in Lean). -/
structure MetricConfig where
  Name : String
  Description : String
  Typ : MetricType
  Labels : List String
  DefaultValue : Rat
  Buckets : List Rat
  Objectives : List (Rat × Rat)
deriving Repr, DecidableEq, Inhabited

/-- Global settings (struct `GlobalConfig`; the lazily parsed interval is kept
as its raw string, the parse being out of scope for the claims). -/
structure GlobalConfig where
  Namespace : String
  RefreshInterval : String
deriving Repr, DecidableEq, Inhabited

/-- Web settings (struct `Web`). -/
structure Web where
  Address : String
deriving Repr, DecidableEq, Inhabited

/-- Root configuration (struct `Config`). -/
structure Config where
  Global : GlobalConfig
  Metrics : List MetricConfig
  Web : Web
deriving Repr, DecidableEq, Inhabited

/-- `MetricConfig.Validate` from config.go: empty-name check, then a switch on
the metric type (gauge/counter need nothing, histogram needs buckets, summary
needs objectives, anything else is an unknown type). -/
def MetricConfig.Validate (m : MetricConfig) : Except String Unit :=
  if m.Name = "" then .error "metric name cannot be empty"
  else if m.Typ = MetricTypeGauge ∨ m.Typ = MetricTypeCounter then .ok ()
  else if m.Typ = MetricTypeHistogram then
    if m.Buckets = [] then
      .error ("histogram metric '" ++ m.Name ++ "' must define buckets")
    else .ok ()
  else if m.Typ = MetricTypeSummary then
    if m.Objectives = [] then
      .error ("summary metric '" ++ m.Name ++ "' must define objectives")
    else .ok ()
  else .error ("unknown metric type '" ++ m.Typ ++ "' for metric '" ++ m.Name ++ "'")

/-- The metrics loop of `Config.Validate` from config.go: each definition is
validated in order, then checked against the names seen so far (the
`metricNames` map). -/
def validateMetricsLoop : List String → List MetricConfig → Except String Unit
  | _, [] => .ok ()
  | seen, m :: rest =>
      match m.Validate with
      | .error e => .error e
      | .ok _ =>
          if memStr seen m.Name then .error ("duplicate metric name: " ++ m.Name)
          else validateMetricsLoop (seen ++ [m.Name]) rest

/-- The metric-definition part of `Config.Validate` (config.go lines 117-132).
The preceding namespace and refresh-interval checks do not read the metric
list.  The Go loop's write-back `c.Metrics[i] = metric` copies the unmodified
element and is a no-op; the loop is pure. -/
def validateMetricList (ms : List MetricConfig) : Except String Unit :=
  validateMetricsLoop [] ms

/-- What makes one definition offending, given the names of the definitions
before it: an empty name, a histogram with no buckets, a summary with no
objectives, a kind outside the four, or a name already used — together with
the error text config.go reports for it. -/
def metricOffense (earlier : List String) (m : MetricConfig) : Option String :=
  if m.Name = "" then some "metric name cannot be empty"
  else if m.Typ = MetricTypeHistogram ∧ m.Buckets = [] then
    some ("histogram metric '" ++ m.Name ++ "' must define buckets")
  else if m.Typ = MetricTypeSummary ∧ m.Objectives = [] then
    some ("summary metric '" ++ m.Name ++ "' must define objectives")
  else if m.Typ ≠ MetricTypeGauge ∧ m.Typ ≠ MetricTypeCounter ∧
      m.Typ ≠ MetricTypeHistogram ∧ m.Typ ≠ MetricTypeSummary then
    some ("unknown metric type '" ++ m.Typ ++ "' for metric '" ++ m.Name ++ "'")
  else if memStr earlier m.Name then some ("duplicate metric name: " ++ m.Name)
  else none

/-- Character filter of `sanitizeMetricName` (from the metric factory file,
which is present in the repository but called from nowhere): keep
`[A-Za-z0-9_]`, replace anything else with an underscore. -/
def sanitizeChar (r : Char) : Char :=
  if ('a' ≤ r ∧ r ≤ 'z') ∨ ('A' ≤ r ∧ r ≤ 'Z') ∨ ('0' ≤ r ∧ r ≤ '9') ∨ r = '_' then r
  else '_'

/-- `sanitizeMetricName` from the unused metric factory: map every rune
through `sanitizeChar`, then prefix a leading digit with an underscore. -/
def sanitizeMetricName (name : String) : String :=
  let sanitized := String.mk (name.data.map sanitizeChar)
  match sanitized.data with
  | [] => sanitized
  | ch :: _ => if '0' ≤ ch ∧ ch ≤ '9' then "_" ++ sanitized else sanitized

/-- The default summary objectives of the unused factory's `CreateMetric`
(`{0.5: 0.05, 0.9: 0.01, 0.99: 0.001}`), applied there when the configured
objectives map is nil.  The live path applies no such default. -/
def defaultObjectives : List (Rat × Rat) :=
  [(1/2, 1/20), (9/10, 1/100), (99/100, 1/1000)]

/-- Metric-name validity of the exposition library: the fully qualified name
must match `[a-zA-Z_:][a-zA-Z0-9_:]*`. -/
def isValidNameStart (c : Char) : Bool :=
  ('a' ≤ c && c ≤ 'z') || ('A' ≤ c && c ≤ 'Z') || c == '_' || c == ':'

def isValidNameChar (c : Char) : Bool :=
  isValidNameStart c || ('0' ≤ c && c ≤ '9')

def isValidMetricName (s : String) : Bool :=
  match s.data with
  | [] => false
  | c :: rest => isValidNameStart c && rest.all isValidNameChar

/-- `prometheus.BuildFQName(namespace, "", name)`: joins the non-empty parts
with underscores. -/
def buildFQName (ns : String) (name : String) : String :=
  if name = "" then ""
  else if ns = "" then name
  else ns ++ "_" ++ name

/-- The prometheus registry, embedded as the set of fully-qualified names
registered so far. -/
structure Registry where
  names : List String
deriving Repr, DecidableEq, Inhabited

/-- `Registry.Register`: fails on an invalid fully-qualified name or on a
duplicate registration, otherwise records the name. -/
def Registry.register (r : Registry) (fq : String) : Except String Registry :=
  if isValidMetricName fq = false then .error ("descriptor is invalid: " ++ fq)
  else if memStr r.names fq then .error ("duplicate metrics collector registration attempted: " ++ fq)
  else .ok { names := r.names ++ [fq] }

/-- One label combination: the tuple of label values in declared-label order
(how a prometheus vector keys its children). -/
abbrev Combo := List String

/-- `prometheus.GaugeVec`: per-combination last-set value. -/
structure GaugeVec where
  fqName : String
  help : String
  labelNames : List String
  data : List (Combo × Rat)
deriving Repr, DecidableEq, Inhabited

/-- `prometheus.CounterVec`: per-combination accumulated sum (children are
created at zero on first use; `Add` panics for negative values). -/
structure CounterVec where
  fqName : String
  help : String
  labelNames : List String
  data : List (Combo × Rat)
deriving Repr, DecidableEq, Inhabited

/-- `prometheus.HistogramVec`: the per-combination observation sequence (the
library derives bucket counts and the running sum from the observations). -/
structure HistogramVec where
  fqName : String
  help : String
  labelNames : List String
  buckets : List Rat
  data : List (Combo × List Rat)
deriving Repr, DecidableEq, Inhabited

/-- `prometheus.SummaryVec`: the per-combination observation sequence (the
library derives quantile estimates from the observations). -/
structure SummaryVec where
  fqName : String
  help : String
  labelNames : List String
  objectives : List (Rat × Rat)
  data : List (Combo × List Rat)
deriving Repr, DecidableEq, Inhabited

/-- Extraction of the child key from a full label map: the values of the
declared labels in order (`With`).  `cleanLabels` guarantees every declared
label is present at the call sites. -/
def comboOf (labelNames : List String) (labels : List (String × String)) : Combo :=
  labelNames.map (fun l => (lookupAssoc labels l).getD "")

/-- Outcome of one Go method call: normal return, returned error, or panic. -/
inductive GoResult where
  | ok
  | goError (msg : String)
  | panicked (msg : String)
deriving Repr, DecidableEq, Inhabited

/-- Incoming label set, a Go `map[string]string`. -/
abbrev LabelMap := List (String × String)

/-- Struct `MetricCollector`: the configuration, the prometheus registry and
the four kind-specific maps from metric name to live vector.  The mutex only
serializes accesses and has no sequential content. -/
structure MetricCollector where
  config : Config
  registry : Registry
  gauges : List (String × GaugeVec)
  counters : List (String × CounterVec)
  histograms : List (String × HistogramVec)
  summaries : List (String × SummaryVec)
deriving Repr, DecidableEq, Inhabited

/-- The filler value `cleanLabels` inserts for a declared label missing from
the input. -/
def Filler : String := "<missing>"

/-- The definition-lookup loop of `cleanLabels`: first configured metric with
the given name. -/
def findMetric : List MetricConfig → String → Option MetricConfig
  | [], _ => none
  | m :: rest, name => if m.Name = name then some m else findMetric rest name

/-- Missing-label filling pass of `cleanLabels`: for each declared label
absent from the map, insert the filler value (the log call is effect-free). -/
def fillMissing : List String → LabelMap → LabelMap
  | [], labels => labels
  | l :: rest, labels =>
      match lookupAssoc labels l with
      | some _ => fillMissing rest labels
      | none => fillMissing rest (labels ++ [(l, Filler)])

/-- Extra-label removal pass of `cleanLabels` (`maps.DeleteFunc`): drop every
key that is not a declared label. -/
def removeExtra (decl : List String) (labels : LabelMap) : LabelMap :=
  labels.filter (fun p => memStr decl p.1)

/-- `cleanLabels` over a metric list: find the definition by name, fill the
missing declared labels, remove the extra keys; error when no definition has
the name. -/
def cleanLabelsCore (metrics : List MetricConfig) (metricName : String)
    (labels : LabelMap) : Except String LabelMap :=
  match findMetric metrics metricName with
  | some metricCfg => .ok (removeExtra metricCfg.Labels (fillMissing metricCfg.Labels labels))
  | none => .error ("metric '" ++ metricName ++ "' not found")

/-- `MetricCollector.cleanLabels`: the loop over `c.config.Metrics`. -/
def MetricCollector.cleanLabels (c : MetricCollector) (metricName : String)
    (labels : LabelMap) : Except String LabelMap :=
  cleanLabelsCore c.config.Metrics metricName labels

/-- `MetricCollector.registerMetric`: switch on the configured type, create
the kind-appropriate vector, register it under the namespace-qualified raw
name, and store it in the kind map under the raw name. -/
def MetricCollector.registerMetric (c : MetricCollector) (metricCfg : MetricConfig) :
    Except String MetricCollector :=
  let ns := c.config.Global.Namespace
  let metricName := metricCfg.Name
  if metricCfg.Typ = MetricTypeGauge then
    match c.registry.register (buildFQName ns metricName) with
    | .error e => .error ("failed to register gauge '" ++ metricName ++ "': " ++ e)
    | .ok reg => .ok { c with
        registry := reg
        gauges := insertAssoc c.gauges metricName
          ⟨buildFQName ns metricName, metricCfg.Description, metricCfg.Labels, []⟩ }
  else if metricCfg.Typ = MetricTypeCounter then
    match c.registry.register (buildFQName ns metricName) with
    | .error e => .error ("failed to register counter '" ++ metricName ++ "': " ++ e)
    | .ok reg => .ok { c with
        registry := reg
        counters := insertAssoc c.counters metricName
          ⟨buildFQName ns metricName, metricCfg.Description, metricCfg.Labels, []⟩ }
  else if metricCfg.Typ = MetricTypeHistogram then
    match c.registry.register (buildFQName ns metricName) with
    | .error e => .error ("failed to register histogram '" ++ metricName ++ "': " ++ e)
    | .ok reg => .ok { c with
        registry := reg
        histograms := insertAssoc c.histograms metricName
          ⟨buildFQName ns metricName, metricCfg.Description, metricCfg.Labels,
            metricCfg.Buckets, []⟩ }
  else if metricCfg.Typ = MetricTypeSummary then
    match c.registry.register (buildFQName ns metricName) with
    | .error e => .error ("failed to register summary '" ++ metricName ++ "': " ++ e)
    | .ok reg => .ok { c with
        registry := reg
        summaries := insertAssoc c.summaries metricName
          ⟨buildFQName ns metricName, metricCfg.Description, metricCfg.Labels,
            metricCfg.Objectives, []⟩ }
  else .error ("unsupported metric type: " ++ metricCfg.Typ)

/-- The loop of `registerMetrics`, with the remaining definitions explicit. -/
def registerMetricsAux : MetricCollector → List MetricConfig → Except String MetricCollector
  | c, [] => .ok c
  | c, m :: rest =>
      match c.registerMetric m with
      | .error e => .error e
      | .ok c' => registerMetricsAux c' rest

/-- `MetricCollector.registerMetrics`: register every configured metric in
order, stopping at the first failure. -/
def MetricCollector.registerMetrics (c : MetricCollector) : Except String MetricCollector :=
  registerMetricsAux c c.config.Metrics

/-- `NewMetricCollector`: empty kind maps, then `registerMetrics`.  (The Go
nil-config guard has no counterpart: a `Config` value always exists here.) -/
def NewMetricCollector (cfg : Config) (registry : Registry) :
    Except String MetricCollector :=
  MetricCollector.registerMetrics
    { config := cfg, registry := registry
      gauges := [], counters := [], histograms := [], summaries := [] }

/-- `MetricCollector.UpdateGauge`: kind-map lookup, `cleanLabels`, then
`gauge.With(labels).Set(value)`.  An error return leaves the collector
unchanged. -/
def MetricCollector.UpdateGauge (c : MetricCollector) (name : String) (value : Rat)
    (labels : LabelMap) : MetricCollector × GoResult :=
  match lookupAssoc c.gauges name with
  | none => (c, .goError ("gauge metric '" ++ name ++ "' not found"))
  | some gauge =>
      match c.cleanLabels name labels with
      | .error e => (c, .goError e)
      | .ok labelsWithFillers =>
          let combo := comboOf gauge.labelNames labelsWithFillers
          let gauge' := { gauge with data := insertAssoc gauge.data combo value }
          ({ c with gauges := insertAssoc c.gauges name gauge' }, .ok)

/-- `MetricCollector.IncrementCounterBy`: kind-map lookup, `cleanLabels`, then
`counter.With(labels).Add(value)`.  `With` materializes the child (at zero on
first use) and `Add` panics when the value is negative, leaving the child's
value unchanged. -/
def MetricCollector.IncrementCounterBy (c : MetricCollector) (name : String) (value : Rat)
    (labels : LabelMap) : MetricCollector × GoResult :=
  match lookupAssoc c.counters name with
  | none => (c, .goError ("counter metric '" ++ name ++ "' not found"))
  | some counter =>
      match c.cleanLabels name labels with
      | .error e => (c, .goError e)
      | .ok labelsWithFillers =>
          let combo := comboOf counter.labelNames labelsWithFillers
          let old := (lookupAssoc counter.data combo).getD 0
          if value < 0 then
            let counter' := { counter with data := insertAssoc counter.data combo old }
            ({ c with counters := insertAssoc c.counters name counter' },
             .panicked "counter cannot decrease in value")
          else
            let counter' := { counter with data := insertAssoc counter.data combo (old + value) }
            ({ c with counters := insertAssoc c.counters name counter' }, .ok)

/-- `MetricCollector.IncrementCounter`: increment by one. -/
def MetricCollector.IncrementCounter (c : MetricCollector) (name : String)
    (labels : LabelMap) : MetricCollector × GoResult :=
  c.IncrementCounterBy name 1 labels

/-- `MetricCollector.ObserveHistogram`: kind-map lookup, `cleanLabels`, then
`histogram.With(labels).Observe(value)` (append the observation). -/
def MetricCollector.ObserveHistogram (c : MetricCollector) (name : String) (value : Rat)
    (labels : LabelMap) : MetricCollector × GoResult :=
  match lookupAssoc c.histograms name with
  | none => (c, .goError ("histogram metric '" ++ name ++ "' not found"))
  | some histogram =>
      match c.cleanLabels name labels with
      | .error e => (c, .goError e)
      | .ok labelsWithFillers =>
          let combo := comboOf histogram.labelNames labelsWithFillers
          let old := (lookupAssoc histogram.data combo).getD []
          let histogram' := { histogram with data := insertAssoc histogram.data combo (old ++ [value]) }
          ({ c with histograms := insertAssoc c.histograms name histogram' }, .ok)

/-- `MetricCollector.ObserveSummary`: kind-map lookup, `cleanLabels`, then
`summary.With(labels).Observe(value)` (append the observation). -/
def MetricCollector.ObserveSummary (c : MetricCollector) (name : String) (value : Rat)
    (labels : LabelMap) : MetricCollector × GoResult :=
  match lookupAssoc c.summaries name with
  | none => (c, .goError ("summary metric '" ++ name ++ "' not found"))
  | some summary =>
      match c.cleanLabels name labels with
      | .error e => (c, .goError e)
      | .ok labelsWithFillers =>
          let combo := comboOf summary.labelNames labelsWithFillers
          let old := (lookupAssoc summary.data combo).getD []
          let summary' := { summary with data := insertAssoc summary.data combo (old ++ [value]) }
          ({ c with summaries := insertAssoc c.summaries name summary' }, .ok)

/-- One update request as dispatched by the push handler (`PushHandler`'s
switch on the parsed metric type). -/
inductive UpdateReq where
  | gauge (name : String) (value : Rat) (labels : LabelMap)
  | counter (name : String) (value : Rat) (labels : LabelMap)
  | histogram (name : String) (value : Rat) (labels : LabelMap)
  | summary (name : String) (value : Rat) (labels : LabelMap)
deriving Repr, DecidableEq

/-- Dispatch of one update request to the kind-specific operation. -/
def MetricCollector.applyUpdate (c : MetricCollector) : UpdateReq → MetricCollector × GoResult
  | .gauge n v l => c.UpdateGauge n v l
  | .counter n v l => c.IncrementCounterBy n v l
  | .histogram n v l => c.ObserveHistogram n v l
  | .summary n v l => c.ObserveSummary n v l

/-- The collector state after a sequence of update requests. -/
def MetricCollector.applyUpdates (c : MetricCollector) : List UpdateReq → MetricCollector
  | [] => c
  | u :: rest => ((c.applyUpdate u).1).applyUpdates rest

/-- The per-request results of a sequence of update requests. -/
def MetricCollector.updateResults (c : MetricCollector) : List UpdateReq → List GoResult
  | [] => []
  | u :: rest => (c.applyUpdate u).2 :: ((c.applyUpdate u).1).updateResults rest

/-- The sequence of counter update requests for a list of deltas against one
name and label map. -/
def counterReqs (name : String) (labels : LabelMap) (ds : List Rat) : List UpdateReq :=
  ds.map (fun d => UpdateReq.counter name d labels)

/-- The collector after `counter.With(combo).Add` stored `val` as the new
accumulated value of `combo` in the counter vector `g` of metric `n`. -/
def counterAfterAdd (c : MetricCollector) (n : String) (g : CounterVec) (combo : Combo)
    (val : Rat) : MetricCollector :=
  { c with counters := insertAssoc c.counters n { g with data := insertAssoc g.data combo val } }

/-- The counter vector after one `Add` of `d` against `combo`. -/
def bumpCounterVec (g : CounterVec) (combo : Combo) (d : Rat) : CounterVec :=
  { g with data := insertAssoc g.data combo ((lookupAssoc g.data combo).getD 0 + d) }

/-- The accumulated value a counter metric stores for one label combination
(zero when the combination has not been observed). -/
def storedCounter (c : MetricCollector) (name : String) (combo : Combo) : Rat :=
  match lookupAssoc c.counters name with
  | some g => (lookupAssoc g.data combo).getD 0
  | none => 0

/-- The label combination a counter update for the given name and label map is
routed to. -/
def counterComboFor (c : MetricCollector) (name : String) (labels : LabelMap) : Combo :=
  match lookupAssoc c.counters name, c.cleanLabels name labels with
  | some g, .ok lwf => comboOf g.labelNames lwf
  | _, _ => []

/-- Concrete configuration pieces, taken from the shipped config.yml, used as
inputs for witnesses and counterexamples. -/
def exGlobal : GlobalConfig := { Namespace := "cron_monitor", RefreshInterval := "30s" }

def exWeb : Web := { Address := ":8080" }

def exMetricGauge : MetricConfig :=
  { Name := "job_last_success",
    Description := "Timestamp of the last successful job execution",
    Typ := "gauge", Labels := ["job_name", "environment"],
    DefaultValue := 0, Buckets := [], Objectives := [] }

def exMetricCounter : MetricConfig :=
  { Name := "job_failures_total", Description := "Total number of job failures",
    Typ := "counter", Labels := ["job_name", "environment", "error_type"],
    DefaultValue := 0, Buckets := [], Objectives := [] }

def exConfig : Config :=
  { Global := exGlobal, Metrics := [exMetricGauge, exMetricCounter], Web := exWeb }

def exRegistry : Registry := { names := [] }

def exCollector : MetricCollector :=
  ((NewMetricCollector exConfig exRegistry).toOption).getD default

/-- A gauge definition whose raw name contains a character outside
`[A-Za-z0-9_]` (a colon, which the exposition library accepts). -/
def exMetricColon : MetricConfig :=
  { Name := "job:a", Description := "d", Typ := "gauge", Labels := [],
    DefaultValue := 0, Buckets := [], Objectives := [] }

def exConfigColon : Config :=
  { Global := exGlobal, Metrics := [exMetricColon], Web := exWeb }

def exCollectorColon : MetricCollector :=
  ((NewMetricCollector exConfigColon exRegistry).toOption).getD default

/-- A summary definition with an empty (absent) objectives mapping. -/
def summaryNoObjectives : MetricConfig :=
  { Name := "s", Description := "d", Typ := "summary", Labels := [],
    DefaultValue := 0, Buckets := [], Objectives := [] }

def exConfigSummary : Config :=
  { Global := exGlobal, Metrics := [summaryNoObjectives], Web := exWeb }

def exMetricsDup : List MetricConfig := [exMetricGauge, exMetricGauge]

/-- Two metric definitions identical except possibly in the `default_value`
field of a gauge (non-gauge definitions must agree on it too). -/
def MetricRel (m1 m2 : MetricConfig) : Prop :=
  m1.Name = m2.Name ∧ m1.Description = m2.Description ∧ m1.Typ = m2.Typ ∧
  m1.Labels = m2.Labels ∧ m1.Buckets = m2.Buckets ∧ m1.Objectives = m2.Objectives ∧
  (m1.Typ ≠ MetricTypeGauge → m1.DefaultValue = m2.DefaultValue)

/-- Two configurations identical except for the `default_value` fields of
their gauge definitions. -/
def ConfigRel (c1 c2 : Config) : Prop :=
  c1.Global = c2.Global ∧ c1.Web = c2.Web ∧ List.Forall₂ MetricRel c1.Metrics c2.Metrics

/-- Equality of everything the exposition and the update operations can
observe: the registry plus the four kind maps (the stored `config` is the one
component allowed to differ). -/
def CollObsEq (c1 c2 : MetricCollector) : Prop :=
  c1.registry = c2.registry ∧ c1.gauges = c2.gauges ∧ c1.counters = c2.counters ∧
  c1.histograms = c2.histograms ∧ c1.summaries = c2.summaries

/-- Both registration outcomes have the same shape: equal error texts, or
observably equal collectors. -/
def ExceptRel : Except String MetricCollector → Except String MetricCollector → Prop
  | .error e1, .error e2 => e1 = e2
  | .ok d1, .ok d2 => CollObsEq d1 d2
  | _, _ => False

/-- The observable registry contents of a collector. -/
def collectorObs (c : MetricCollector) :
    Registry × List (String × GaugeVec) × List (String × CounterVec) ×
      List (String × HistogramVec) × List (String × SummaryVec) :=
  (c.registry, c.gauges, c.counters, c.histograms, c.summaries)

/-- A deterministic text rendering of the observable registry contents,
standing in for the external exposition adapter. -/
def expositionText (c : MetricCollector) : String :=
  toString (repr (collectorObs c))

/-- `exMetricGauge` with a different `default_value`. -/
def exMetricGaugeAlt : MetricConfig := { exMetricGauge with DefaultValue := 5 }

def exConfigAlt : Config :=
  { Global := exGlobal, Metrics := [exMetricGaugeAlt, exMetricCounter], Web := exWeb }

def exCollectorAlt : MetricCollector :=
  ((NewMetricCollector exConfigAlt exRegistry).toOption).getD default

/-! ### Theorems -/

theorem lookupAssoc_insertAssoc {κ α : Type} [DecidableEq κ]
    (l : List (κ × α)) (k k' : κ) (v : α) :
    lookupAssoc (insertAssoc l k v) k' = if k' = k then some v else lookupAssoc l k' := by
  induction l with
  | nil =>
      simp only [insertAssoc, lookupAssoc]
      by_cases h : k = k'
      · subst h; simp
      · rw [if_neg h, if_neg (fun hh : k' = k => h hh.symm)]
  | cons p rest ih =>
      obtain ⟨k₀, v₀⟩ := p
      simp only [insertAssoc]
      by_cases h0 : k₀ = k
      · rw [if_pos h0]
        subst h0
        simp only [lookupAssoc]
        by_cases h1 : k₀ = k'
        · subst h1; simp
        · rw [if_neg h1, if_neg (fun hh : k' = k₀ => h1 hh.symm), if_neg h1]
      · rw [if_neg h0]
        simp only [lookupAssoc]
        by_cases h1 : k₀ = k'
        · subst h1
          rw [if_pos rfl, if_neg (fun hh : k₀ = k => h0 hh), if_pos rfl]
        · rw [if_neg h1, ih, if_neg h1]

theorem memStr_iff (l : List String) (s : String) : memStr l s = true ↔ s ∈ l := by
  induction l with
  | nil => simp [memStr]
  | cons x rest ih =>
      by_cases h : x = s
      · subst h; simp [memStr]
      · simp [memStr, h, ih]
        intro hmem
        exact absurd hmem.symm h

theorem metricOffense_eq (earlier : List String) (m : MetricConfig) :
    metricOffense earlier m =
      match m.Validate with
      | .error e => some e
      | .ok _ =>
          if memStr earlier m.Name then some ("duplicate metric name: " ++ m.Name)
          else none := by
  by_cases hname : m.Name = ""
  · simp [metricOffense, MetricConfig.Validate, hname]
  · by_cases hg : m.Typ = MetricTypeGauge
    · simp [metricOffense, MetricConfig.Validate, hname, hg,
        MetricTypeGauge, MetricTypeCounter, MetricTypeHistogram, MetricTypeSummary]
    · by_cases hc : m.Typ = MetricTypeCounter
      · simp [metricOffense, MetricConfig.Validate, hname, hg, hc,
          MetricTypeGauge, MetricTypeCounter, MetricTypeHistogram, MetricTypeSummary]
      · by_cases hh : m.Typ = MetricTypeHistogram
        · by_cases hb : m.Buckets = [] <;>
            simp [metricOffense, MetricConfig.Validate, hname, hg, hc, hh, hb,
              MetricTypeGauge, MetricTypeCounter, MetricTypeHistogram, MetricTypeSummary]
        · by_cases hs : m.Typ = MetricTypeSummary
          · by_cases ho : m.Objectives = [] <;>
              simp [metricOffense, MetricConfig.Validate, hname, hg, hc, hh, hs, ho,
                MetricTypeGauge, MetricTypeCounter, MetricTypeHistogram, MetricTypeSummary]
          · simp [metricOffense, MetricConfig.Validate, hname, hg, hc, hh, hs]

theorem validateMetricsLoop_cons (seen : List String) (m : MetricConfig)
    (rest : List MetricConfig) :
    validateMetricsLoop seen (m :: rest) =
      match metricOffense seen m with
      | some e => .error e
      | none => validateMetricsLoop (seen ++ [m.Name]) rest := by
  rw [metricOffense_eq]
  show (match m.Validate with
        | .error e => Except.error e
        | .ok _ =>
            if memStr seen m.Name then Except.error ("duplicate metric name: " ++ m.Name)
            else validateMetricsLoop (seen ++ [m.Name]) rest) = _
  cases hv : m.Validate with
  | error e => simp
  | ok u =>
      by_cases hdup : memStr seen m.Name <;> simp [hdup]

theorem validateMetricsLoop_ok_iff : ∀ (ms : List MetricConfig) (seen : List String),
    validateMetricsLoop seen ms = .ok () ↔
      ∀ i, i < ms.length →
        metricOffense (seen ++ (ms.take i).map (fun m => m.Name)) (ms.getD i default) = none := by
  intro ms
  induction ms with
  | nil => intro seen; simp [validateMetricsLoop]
  | cons m rest ih =>
      intro seen
      rw [validateMetricsLoop_cons]
      cases hoff : metricOffense seen m with
      | some e =>
          simp only []
          constructor
          · intro h; cases h
          · intro h
            have h0 := h 0 (by simp)
            simp [hoff] at h0
      | none =>
          simp only []
          rw [ih (seen ++ [m.Name])]
          constructor
          · intro h i hi
            cases i with
            | zero => simpa using hoff
            | succ j =>
                have hj : j < rest.length := by simpa using hi
                have := h j hj
                simpa [List.append_assoc] using this
          · intro h j hj
            have := h (j + 1) (by simpa using hj)
            simpa [List.append_assoc] using this

theorem validateMetricsLoop_error_first :
    ∀ (ms : List MetricConfig) (seen : List String) (i : Nat) (e : String),
    i < ms.length →
    (∀ j, j < i →
      metricOffense (seen ++ (ms.take j).map (fun m => m.Name)) (ms.getD j default) = none) →
    metricOffense (seen ++ (ms.take i).map (fun m => m.Name)) (ms.getD i default) = some e →
    validateMetricsLoop seen ms = .error e := by
  intro ms
  induction ms with
  | nil => intro seen i e hi; simp at hi
  | cons m rest ih =>
      intro seen i e hi hprev hcur
      rw [validateMetricsLoop_cons]
      cases i with
      | zero =>
          have : metricOffense seen m = some e := by simpa using hcur
          simp [this]
      | succ j =>
          have h0 : metricOffense seen m = none := by
            have := hprev 0 (Nat.succ_pos j)
            simpa using this
          simp only [h0]
          refine ih (seen ++ [m.Name]) j e (by simpa using hi) ?_ ?_
          · intro j' hj'
            have := hprev (j' + 1) (by omega)
            simpa [List.append_assoc] using this
          · simpa [List.append_assoc] using hcur

/-- C3 (confirmed): validation of a sequence of metric definitions is a pure
function of the sequence, examined in order; it succeeds exactly when no
definition is offending (empty name, histogram with empty bucket list, summary
with empty objectives map, kind outside the enumerated four, or a raw name
shared with an earlier definition), and when it fails the reported error is
the one of the first offending definition in sequence order. -/
theorem validateMetricList_characterization (ms : List MetricConfig) :
    (validateMetricList ms = .ok () ↔
      ∀ i, i < ms.length →
        metricOffense ((ms.take i).map (fun m => m.Name)) (ms.getD i default) = none) ∧
    (∀ i e, i < ms.length →
      (∀ j, j < i →
        metricOffense ((ms.take j).map (fun m => m.Name)) (ms.getD j default) = none) →
      metricOffense ((ms.take i).map (fun m => m.Name)) (ms.getD i default) = some e →
      validateMetricList ms = .error e) ∧
    (∀ e, validateMetricList ms = .error e →
      ∃ i, i < ms.length ∧
        metricOffense ((ms.take i).map (fun m => m.Name)) (ms.getD i default) = some e ∧
        ∀ j, j < i →
          metricOffense ((ms.take j).map (fun m => m.Name)) (ms.getD j default) = none) := by
  have h1 : validateMetricList ms = .ok () ↔
      ∀ i, i < ms.length →
        metricOffense ((ms.take i).map (fun m => m.Name)) (ms.getD i default) = none := by
    simpa using validateMetricsLoop_ok_iff ms []
  have h2 : ∀ i e, i < ms.length →
      (∀ j, j < i →
        metricOffense ((ms.take j).map (fun m => m.Name)) (ms.getD j default) = none) →
      metricOffense ((ms.take i).map (fun m => m.Name)) (ms.getD i default) = some e →
      validateMetricList ms = .error e := by
    intro i e hi hprev hcur
    refine validateMetricsLoop_error_first ms [] i e hi ?_ ?_
    · intro j hj; simpa using hprev j hj
    · simpa using hcur
  refine ⟨h1, h2, ?_⟩
  intro e he
  have hne : ∃ i, i < ms.length ∧
      metricOffense ((ms.take i).map (fun m => m.Name)) (ms.getD i default) ≠ none := by
    by_contra hall
    push_neg at hall
    have hok : validateMetricList ms = .ok () := h1.mpr hall
    rw [hok] at he
    cases he
  classical
  have hi0 := Nat.find_spec hne
  have hmin : ∀ j, j < Nat.find hne →
      metricOffense ((ms.take j).map (fun m => m.Name)) (ms.getD j default) = none := by
    intro j hj
    have hnp := Nat.find_min hne hj
    by_cases hjl : j < ms.length
    · by_contra hcon
      exact hnp ⟨hjl, hcon⟩
    · exact absurd (Nat.lt_trans hj hi0.1) hjl
  obtain ⟨e', he'⟩ : ∃ e', metricOffense ((ms.take (Nat.find hne)).map (fun m => m.Name))
      (ms.getD (Nat.find hne) default) = some e' := by
    cases hcase : metricOffense ((ms.take (Nat.find hne)).map (fun m => m.Name))
        (ms.getD (Nat.find hne) default) with
    | none => exact absurd hcase hi0.2
    | some x => exact ⟨x, rfl⟩
  have hrun := h2 (Nat.find hne) e' hi0.1 hmin he'
  rw [he] at hrun
  have : e' = e := by
    injection hrun with h
    exact h.symm
  subst this
  exact ⟨Nat.find hne, hi0.1, he', hmin⟩

theorem lookupAssoc_append_single (m : LabelMap) (d : String) (x : String) (k : String) :
    lookupAssoc (m ++ [(d, x)]) k =
      match lookupAssoc m k with
      | some v => some v
      | none => if k = d then some x else none := by
  induction m with
  | nil =>
      simp only [List.nil_append, lookupAssoc]
      by_cases h : d = k
      · subst h; simp
      · rw [if_neg h, if_neg (fun hh : k = d => h hh.symm)]
  | cons p rest ih =>
      obtain ⟨k₀, v₀⟩ := p
      simp only [List.cons_append, lookupAssoc]
      by_cases h : k₀ = k
      · simp [h]
      · rw [if_neg h, if_neg h]
        exact ih

theorem lookupAssoc_fillMissing : ∀ (decl : List String) (m : LabelMap) (k : String),
    lookupAssoc (fillMissing decl m) k =
      match lookupAssoc m k with
      | some v => some v
      | none => if memStr decl k then some Filler else none := by
  intro decl
  induction decl with
  | nil =>
      intro m k
      simp only [fillMissing, memStr]
      cases lookupAssoc m k <;> simp
  | cons d rest ih =>
      intro m k
      simp only [fillMissing]
      cases hd : lookupAssoc m d with
      | some v =>
          rw [ih m k]
          cases hk : lookupAssoc m k with
          | some w => simp
          | none =>
              by_cases hkd : d = k
              · subst hkd
                rw [hd] at hk
                cases hk
              · simp [memStr, hkd]
      | none =>
          rw [ih (m ++ [(d, Filler)]) k, lookupAssoc_append_single]
          cases hk : lookupAssoc m k with
          | some w => simp
          | none =>
              by_cases hkd : k = d
              · subst hkd
                simp [memStr]
              · have hdk : ¬ d = k := fun hh => hkd hh.symm
                simp [memStr, hkd, hdk]

theorem lookupAssoc_removeExtra (decl : List String) :
    ∀ (m : LabelMap) (k : String),
    lookupAssoc (removeExtra decl m) k =
      if memStr decl k then lookupAssoc m k else none := by
  intro m
  induction m with
  | nil =>
      intro k
      cases hm : memStr decl k <;> simp [removeExtra, lookupAssoc, hm]
  | cons p rest ih =>
      intro k
      obtain ⟨k₀, v₀⟩ := p
      have hrw : removeExtra decl ((k₀, v₀) :: rest) =
          if memStr decl k₀ = true then (k₀, v₀) :: removeExtra decl rest
          else removeExtra decl rest := by
        simp [removeExtra, List.filter_cons]
      rw [hrw]
      by_cases hk0 : memStr decl k₀ = true
      · rw [if_pos hk0]
        simp only [lookupAssoc]
        by_cases h : k₀ = k
        · subst h
          rw [if_pos rfl]
          simp [hk0, lookupAssoc]
        · rw [if_neg h, ih k]
          by_cases hk : memStr decl k = true
          · simp [hk, lookupAssoc, h]
          · simp [hk]
      · rw [if_neg hk0, ih k]
        by_cases hk : memStr decl k = true
        · have h : ¬ k₀ = k := fun hh => hk0 (hh ▸ hk)
          simp [hk, lookupAssoc, h]
        · simp [hk]

theorem findMetric_none_iff (ms : List MetricConfig) (name : String) :
    findMetric ms name = none ↔ ∀ m ∈ ms, m.Name ≠ name := by
  induction ms with
  | nil => simp [findMetric]
  | cons m rest ih =>
      simp only [findMetric]
      by_cases h : m.Name = name
      · simp [h]
      · simp [h, ih]

theorem findMetric_isSome_of_mem (ms : List MetricConfig) (name : String)
    (h : ∃ m ∈ ms, m.Name = name) : ∃ metricCfg, findMetric ms name = some metricCfg := by
  cases hf : findMetric ms name with
  | some metricCfg => exact ⟨metricCfg, rfl⟩
  | none =>
      obtain ⟨m, hm, hname⟩ := h
      exact absurd hname ((findMetric_none_iff ms name).mp hf m hm)

/-- C1 (confirmed): `cleanLabels` fails with the metric-not-found error exactly
when the metric name has no definition in the configuration; when a definition
with declared labels `L` is found, it returns a label map whose key set is
exactly `L`, where a declared label present in the input keeps its input value,
a declared label absent from the input is bound to the filler `"<missing>"`,
and every other key is gone. -/
theorem cleanLabels_normalizes (c : MetricCollector) (name : String) (labels : LabelMap) :
    ((∀ m ∈ c.config.Metrics, m.Name ≠ name) →
      c.cleanLabels name labels = .error ("metric '" ++ name ++ "' not found")) ∧
    ((∃ m ∈ c.config.Metrics, m.Name = name) →
      (c.cleanLabels name labels).isOk = true) ∧
    (∀ metricCfg, findMetric c.config.Metrics name = some metricCfg →
      ∃ out, c.cleanLabels name labels = .ok out ∧
        ∀ k, lookupAssoc out k =
          if memStr metricCfg.Labels k then some ((lookupAssoc labels k).getD Filler)
          else none) := by
  refine ⟨?_, ?_, ?_⟩
  · intro hnone
    have hf : findMetric c.config.Metrics name = none :=
      (findMetric_none_iff c.config.Metrics name).mpr hnone
    simp [MetricCollector.cleanLabels, cleanLabelsCore, hf]
  · intro hsome
    obtain ⟨metricCfg, hf⟩ := findMetric_isSome_of_mem c.config.Metrics name hsome
    simp [MetricCollector.cleanLabels, cleanLabelsCore, hf, Except.isOk, Except.toBool]
  · intro metricCfg hf
    refine ⟨removeExtra metricCfg.Labels (fillMissing metricCfg.Labels labels), ?_, ?_⟩
    · simp [MetricCollector.cleanLabels, cleanLabelsCore, hf]
    · intro k
      rw [lookupAssoc_removeExtra, lookupAssoc_fillMissing]
      by_cases hmem : memStr metricCfg.Labels k = true
      · rw [if_pos hmem]
        cases hk : lookupAssoc labels k with
        | some v => simp [hmem]
        | none => simp [hmem]
      · rw [if_neg hmem, if_neg hmem]

theorem registerMetric_ok (c : MetricCollector) (m : MetricConfig) (c' : MetricCollector)
    (h : c.registerMetric m = .ok c') :
    c'.config = c.config ∧
    ((m.Typ = MetricTypeGauge ∧
        c'.gauges = insertAssoc c.gauges m.Name
          ⟨buildFQName c.config.Global.Namespace m.Name, m.Description, m.Labels, []⟩ ∧
        c'.counters = c.counters ∧ c'.histograms = c.histograms ∧
        c'.summaries = c.summaries) ∨
     (m.Typ = MetricTypeCounter ∧
        c'.counters = insertAssoc c.counters m.Name
          ⟨buildFQName c.config.Global.Namespace m.Name, m.Description, m.Labels, []⟩ ∧
        c'.gauges = c.gauges ∧ c'.histograms = c.histograms ∧
        c'.summaries = c.summaries) ∨
     (m.Typ = MetricTypeHistogram ∧
        c'.histograms = insertAssoc c.histograms m.Name
          ⟨buildFQName c.config.Global.Namespace m.Name, m.Description, m.Labels,
            m.Buckets, []⟩ ∧
        c'.gauges = c.gauges ∧ c'.counters = c.counters ∧
        c'.summaries = c.summaries) ∨
     (m.Typ = MetricTypeSummary ∧
        c'.summaries = insertAssoc c.summaries m.Name
          ⟨buildFQName c.config.Global.Namespace m.Name, m.Description, m.Labels,
            m.Objectives, []⟩ ∧
        c'.gauges = c.gauges ∧ c'.counters = c.counters ∧
        c'.histograms = c.histograms)) := by
  simp only [MetricCollector.registerMetric] at h
  by_cases hg : m.Typ = MetricTypeGauge
  · rw [if_pos hg] at h
    cases hr : c.registry.register (buildFQName c.config.Global.Namespace m.Name) with
    | error e => rw [hr] at h; cases h
    | ok reg =>
        rw [hr] at h
        simp only [Except.ok.injEq] at h
        subst h
        exact ⟨rfl, Or.inl ⟨hg, rfl, rfl, rfl, rfl⟩⟩
  · rw [if_neg hg] at h
    by_cases hc : m.Typ = MetricTypeCounter
    · rw [if_pos hc] at h
      cases hr : c.registry.register (buildFQName c.config.Global.Namespace m.Name) with
      | error e => rw [hr] at h; cases h
      | ok reg =>
          rw [hr] at h
          simp only [Except.ok.injEq] at h
          subst h
          exact ⟨rfl, Or.inr (Or.inl ⟨hc, rfl, rfl, rfl, rfl⟩)⟩
    · rw [if_neg hc] at h
      by_cases hh : m.Typ = MetricTypeHistogram
      · rw [if_pos hh] at h
        cases hr : c.registry.register (buildFQName c.config.Global.Namespace m.Name) with
        | error e => rw [hr] at h; cases h
        | ok reg =>
            rw [hr] at h
            simp only [Except.ok.injEq] at h
            subst h
            exact ⟨rfl, Or.inr (Or.inr (Or.inl ⟨hh, rfl, rfl, rfl, rfl⟩))⟩
      · rw [if_neg hh] at h
        by_cases hs : m.Typ = MetricTypeSummary
        · rw [if_pos hs] at h
          cases hr : c.registry.register (buildFQName c.config.Global.Namespace m.Name) with
          | error e => rw [hr] at h; cases h
          | ok reg =>
              rw [hr] at h
              simp only [Except.ok.injEq] at h
              subst h
              exact ⟨rfl, Or.inr (Or.inr (Or.inr ⟨hs, rfl, rfl, rfl, rfl⟩))⟩
        · rw [if_neg hs] at h
          cases h

theorem registerMetricsAux_sound :
    ∀ (ms : List MetricConfig) (c c' : MetricCollector),
    registerMetricsAux c ms = .ok c' →
    c'.config = c.config ∧
    (∀ name vec, lookupAssoc c'.gauges name = some vec →
      lookupAssoc c.gauges name = some vec ∨
        ∃ m ∈ ms, m.Name = name ∧ m.Typ = MetricTypeGauge ∧
          vec.labelNames = m.Labels ∧ vec.data = []) ∧
    (∀ name vec, lookupAssoc c'.counters name = some vec →
      lookupAssoc c.counters name = some vec ∨
        ∃ m ∈ ms, m.Name = name ∧ m.Typ = MetricTypeCounter ∧
          vec.labelNames = m.Labels ∧ vec.data = []) ∧
    (∀ name vec, lookupAssoc c'.histograms name = some vec →
      lookupAssoc c.histograms name = some vec ∨
        ∃ m ∈ ms, m.Name = name ∧ m.Typ = MetricTypeHistogram ∧
          vec.labelNames = m.Labels ∧ vec.data = []) ∧
    (∀ name vec, lookupAssoc c'.summaries name = some vec →
      lookupAssoc c.summaries name = some vec ∨
        ∃ m ∈ ms, m.Name = name ∧ m.Typ = MetricTypeSummary ∧
          vec.labelNames = m.Labels ∧ vec.objectives = m.Objectives ∧ vec.data = []) := by
  intro ms
  induction ms with
  | nil =>
      intro c c' h
      simp only [registerMetricsAux, Except.ok.injEq] at h
      subst h
      exact ⟨rfl, fun name vec hl => Or.inl hl, fun name vec hl => Or.inl hl,
        fun name vec hl => Or.inl hl, fun name vec hl => Or.inl hl⟩
  | cons m rest ih =>
      intro c c' h
      simp only [registerMetricsAux] at h
      cases hr : c.registerMetric m with
      | error e => rw [hr] at h; cases h
      | ok c1 =>
          rw [hr] at h
          obtain ⟨hcfg1, hcase⟩ := registerMetric_ok c m c1 hr
          obtain ⟨hcfg2, hg2, hc2, hh2, hs2⟩ := ih c1 c' h
          refine ⟨hcfg2.trans hcfg1, ?_, ?_, ?_, ?_⟩
          · intro name vec hl
            rcases hg2 name vec hl with hin | ⟨m', hm', rest'⟩
            · rcases hcase with ⟨hty, hmap, -, -, -⟩ | ⟨-, -, hmap, -, -⟩ |
                ⟨-, -, hmap, -, -⟩ | ⟨-, -, hmap, -, -⟩
              · rw [hmap, lookupAssoc_insertAssoc] at hin
                by_cases hn : name = m.Name
                · rw [if_pos hn] at hin
                  cases hin
                  exact Or.inr ⟨m, List.mem_cons_self m rest, hn.symm, hty, rfl, rfl⟩
                · rw [if_neg hn] at hin
                  exact Or.inl hin
              · rw [hmap] at hin; exact Or.inl hin
              · rw [hmap] at hin; exact Or.inl hin
              · rw [hmap] at hin; exact Or.inl hin
            · exact Or.inr ⟨m', List.mem_cons_of_mem m hm', rest'⟩
          · intro name vec hl
            rcases hc2 name vec hl with hin | ⟨m', hm', rest'⟩
            · rcases hcase with ⟨-, -, hmap, -, -⟩ | ⟨hty, hmap, -, -, -⟩ |
                ⟨-, -, -, hmap, -⟩ | ⟨-, -, -, hmap, -⟩
              · rw [hmap] at hin; exact Or.inl hin
              · rw [hmap, lookupAssoc_insertAssoc] at hin
                by_cases hn : name = m.Name
                · rw [if_pos hn] at hin
                  cases hin
                  exact Or.inr ⟨m, List.mem_cons_self m rest, hn.symm, hty, rfl, rfl⟩
                · rw [if_neg hn] at hin
                  exact Or.inl hin
              · rw [hmap] at hin; exact Or.inl hin
              · rw [hmap] at hin; exact Or.inl hin
            · exact Or.inr ⟨m', List.mem_cons_of_mem m hm', rest'⟩
          · intro name vec hl
            rcases hh2 name vec hl with hin | ⟨m', hm', rest'⟩
            · rcases hcase with ⟨-, -, -, hmap, -⟩ | ⟨-, -, -, hmap, -⟩ |
                ⟨hty, hmap, -, -, -⟩ | ⟨-, -, -, -, hmap⟩
              · rw [hmap] at hin; exact Or.inl hin
              · rw [hmap] at hin; exact Or.inl hin
              · rw [hmap, lookupAssoc_insertAssoc] at hin
                by_cases hn : name = m.Name
                · rw [if_pos hn] at hin
                  cases hin
                  exact Or.inr ⟨m, List.mem_cons_self m rest, hn.symm, hty, rfl, rfl⟩
                · rw [if_neg hn] at hin
                  exact Or.inl hin
              · rw [hmap] at hin; exact Or.inl hin
            · exact Or.inr ⟨m', List.mem_cons_of_mem m hm', rest'⟩
          · intro name vec hl
            rcases hs2 name vec hl with hin | ⟨m', hm', rest'⟩
            · rcases hcase with ⟨-, -, -, -, hmap⟩ | ⟨-, -, -, -, hmap⟩ |
                ⟨-, -, -, -, hmap⟩ | ⟨hty, hmap, -, -, -⟩
              · rw [hmap] at hin; exact Or.inl hin
              · rw [hmap] at hin; exact Or.inl hin
              · rw [hmap] at hin; exact Or.inl hin
              · rw [hmap, lookupAssoc_insertAssoc] at hin
                by_cases hn : name = m.Name
                · rw [if_pos hn] at hin
                  cases hin
                  exact Or.inr ⟨m, List.mem_cons_self m rest, hn.symm, hty, rfl, rfl, rfl⟩
                · rw [if_neg hn] at hin
                  exact Or.inl hin
            · exact Or.inr ⟨m', List.mem_cons_of_mem m hm', rest'⟩

theorem registerMetricsAux_mono :
    ∀ (ms : List MetricConfig) (c c' : MetricCollector),
    registerMetricsAux c ms = .ok c' →
    ∀ name,
      ((lookupAssoc c.gauges name).isSome → (lookupAssoc c'.gauges name).isSome) ∧
      ((lookupAssoc c.counters name).isSome → (lookupAssoc c'.counters name).isSome) ∧
      ((lookupAssoc c.histograms name).isSome → (lookupAssoc c'.histograms name).isSome) ∧
      ((lookupAssoc c.summaries name).isSome → (lookupAssoc c'.summaries name).isSome) := by
  intro ms
  induction ms with
  | nil =>
      intro c c' h name
      simp only [registerMetricsAux, Except.ok.injEq] at h
      subst h
      exact ⟨id, id, id, id⟩
  | cons m rest ih =>
      intro c c' h name
      simp only [registerMetricsAux] at h
      cases hr : c.registerMetric m with
      | error e => rw [hr] at h; cases h
      | ok c1 =>
          rw [hr] at h
          obtain ⟨-, hcase⟩ := registerMetric_ok c m c1 hr
          have step : ((lookupAssoc c.gauges name).isSome →
                (lookupAssoc c1.gauges name).isSome) ∧
              ((lookupAssoc c.counters name).isSome →
                (lookupAssoc c1.counters name).isSome) ∧
              ((lookupAssoc c.histograms name).isSome →
                (lookupAssoc c1.histograms name).isSome) ∧
              ((lookupAssoc c.summaries name).isSome →
                (lookupAssoc c1.summaries name).isSome) := by
            rcases hcase with ⟨-, hmap, h2, h3, h4⟩ | ⟨-, hmap, h2, h3, h4⟩ |
              ⟨-, hmap, h2, h3, h4⟩ | ⟨-, hmap, h2, h3, h4⟩ <;>
              refine ⟨?_, ?_, ?_, ?_⟩ <;>
              first
              | (rw [h2]; exact id)
              | (rw [h3]; exact id)
              | (rw [h4]; exact id)
              | (rw [hmap, lookupAssoc_insertAssoc]
                 by_cases hn : name = m.Name
                 · rw [if_pos hn]; intro _; rfl
                 · rw [if_neg hn]; exact id)
          obtain ⟨s1, s2, s3, s4⟩ := step
          obtain ⟨t1, t2, t3, t4⟩ := ih c1 c' h name
          exact ⟨fun hx => t1 (s1 hx), fun hx => t2 (s2 hx),
            fun hx => t3 (s3 hx), fun hx => t4 (s4 hx)⟩

theorem registerMetricsAux_complete :
    ∀ (ms : List MetricConfig) (c c' : MetricCollector),
    registerMetricsAux c ms = .ok c' →
    ∀ m ∈ ms,
      (m.Typ = MetricTypeGauge → (lookupAssoc c'.gauges m.Name).isSome) ∧
      (m.Typ = MetricTypeCounter → (lookupAssoc c'.counters m.Name).isSome) ∧
      (m.Typ = MetricTypeHistogram → (lookupAssoc c'.histograms m.Name).isSome) ∧
      (m.Typ = MetricTypeSummary → (lookupAssoc c'.summaries m.Name).isSome) := by
  intro ms
  induction ms with
  | nil => intro c c' h m hm; cases hm
  | cons m0 rest ih =>
      intro c c' h m hm
      simp only [registerMetricsAux] at h
      cases hr : c.registerMetric m0 with
      | error e => rw [hr] at h; cases h
      | ok c1 =>
          rw [hr] at h
          rcases List.mem_cons.mp hm with heq | htail
          · subst heq
            obtain ⟨-, hcase⟩ := registerMetric_ok c m c1 hr
            have hmono := registerMetricsAux_mono rest c1 c' h m.Name
            refine ⟨?_, ?_, ?_, ?_⟩
            · intro hty
              refine hmono.1 ?_
              rcases hcase with ⟨-, hmap, -, -, -⟩ | ⟨hty2, -, -, -, -⟩ |
                ⟨hty2, -, -, -, -⟩ | ⟨hty2, -, -, -, -⟩
              · rw [hmap, lookupAssoc_insertAssoc, if_pos rfl]; rfl
              · rw [hty] at hty2; exact absurd hty2 (by decide)
              · rw [hty] at hty2; exact absurd hty2 (by decide)
              · rw [hty] at hty2; exact absurd hty2 (by decide)
            · intro hty
              refine hmono.2.1 ?_
              rcases hcase with ⟨hty2, -, -, -, -⟩ | ⟨-, hmap, -, -, -⟩ |
                ⟨hty2, -, -, -, -⟩ | ⟨hty2, -, -, -, -⟩
              · rw [hty] at hty2; exact absurd hty2 (by decide)
              · rw [hmap, lookupAssoc_insertAssoc, if_pos rfl]; rfl
              · rw [hty] at hty2; exact absurd hty2 (by decide)
              · rw [hty] at hty2; exact absurd hty2 (by decide)
            · intro hty
              refine hmono.2.2.1 ?_
              rcases hcase with ⟨hty2, -, -, -, -⟩ | ⟨hty2, -, -, -, -⟩ |
                ⟨-, hmap, -, -, -⟩ | ⟨hty2, -, -, -, -⟩
              · rw [hty] at hty2; exact absurd hty2 (by decide)
              · rw [hty] at hty2; exact absurd hty2 (by decide)
              · rw [hmap, lookupAssoc_insertAssoc, if_pos rfl]; rfl
              · rw [hty] at hty2; exact absurd hty2 (by decide)
            · intro hty
              refine hmono.2.2.2 ?_
              rcases hcase with ⟨hty2, -, -, -, -⟩ | ⟨hty2, -, -, -, -⟩ |
                ⟨hty2, -, -, -, -⟩ | ⟨-, hmap, -, -, -⟩
              · rw [hty] at hty2; exact absurd hty2 (by decide)
              · rw [hty] at hty2; exact absurd hty2 (by decide)
              · rw [hty] at hty2; exact absurd hty2 (by decide)
              · rw [hmap, lookupAssoc_insertAssoc, if_pos rfl]; rfl
          · exact ih c1 c' h m htail

/-- Everything later proofs need about a successfully built collector: the
stored configuration is the one supplied, every vector in a kind map comes
from a configured definition of that kind (with its labels, and for summaries
its objectives, and an empty data set), and every configured definition has
its vector in the map of its kind, keyed by the raw name. -/
theorem NewMetricCollector_facts (cfg : Config) (r : Registry) (c : MetricCollector)
    (hb : NewMetricCollector cfg r = .ok c) :
    c.config = cfg ∧
    (∀ name vec, lookupAssoc c.gauges name = some vec →
      ∃ m ∈ cfg.Metrics, m.Name = name ∧ m.Typ = MetricTypeGauge ∧
        vec.labelNames = m.Labels ∧ vec.data = []) ∧
    (∀ name vec, lookupAssoc c.counters name = some vec →
      ∃ m ∈ cfg.Metrics, m.Name = name ∧ m.Typ = MetricTypeCounter ∧
        vec.labelNames = m.Labels ∧ vec.data = []) ∧
    (∀ name vec, lookupAssoc c.histograms name = some vec →
      ∃ m ∈ cfg.Metrics, m.Name = name ∧ m.Typ = MetricTypeHistogram ∧
        vec.labelNames = m.Labels ∧ vec.data = []) ∧
    (∀ name vec, lookupAssoc c.summaries name = some vec →
      ∃ m ∈ cfg.Metrics, m.Name = name ∧ m.Typ = MetricTypeSummary ∧
        vec.labelNames = m.Labels ∧ vec.objectives = m.Objectives ∧ vec.data = []) ∧
    (∀ m ∈ cfg.Metrics,
      (m.Typ = MetricTypeGauge → (lookupAssoc c.gauges m.Name).isSome) ∧
      (m.Typ = MetricTypeCounter → (lookupAssoc c.counters m.Name).isSome) ∧
      (m.Typ = MetricTypeHistogram → (lookupAssoc c.histograms m.Name).isSome) ∧
      (m.Typ = MetricTypeSummary → (lookupAssoc c.summaries m.Name).isSome)) := by
  have h : registerMetricsAux
      { config := cfg, registry := r,
        gauges := [], counters := [], histograms := [], summaries := [] }
      cfg.Metrics = .ok c := hb
  obtain ⟨hcfg, hg, hc, hh, hs⟩ := registerMetricsAux_sound cfg.Metrics _ c h
  refine ⟨hcfg, ?_, ?_, ?_, ?_, registerMetricsAux_complete cfg.Metrics _ c h⟩
  · intro name vec hl
    rcases hg name vec hl with hin | hex
    · cases hin
    · exact hex
  · intro name vec hl
    rcases hc name vec hl with hin | hex
    · cases hin
    · exact hex
  · intro name vec hl
    rcases hh name vec hl with hin | hex
    · cases hin
    · exact hex
  · intro name vec hl
    rcases hs name vec hl with hin | hex
    · cases hin
    · exact hex

/-- C2 (confirmed): each update operation performs a kind-checked lookup; when
the name is not configured at all, or configured under a different kind than
the operation's, the operation returns the kind-specific metric-not-found
error (never a type mismatch) and the collector — registry and all
aggregation state — is returned unchanged. -/
theorem update_kind_checked_not_found (cfg : Config) (r : Registry) (c : MetricCollector)
    (name : String) (v : Rat) (labels : LabelMap)
    (hb : NewMetricCollector cfg r = .ok c) :
    ((¬ ∃ m ∈ cfg.Metrics, m.Name = name ∧ m.Typ = MetricTypeGauge) →
      c.UpdateGauge name v labels =
        (c, .goError ("gauge metric '" ++ name ++ "' not found"))) ∧
    ((¬ ∃ m ∈ cfg.Metrics, m.Name = name ∧ m.Typ = MetricTypeCounter) →
      c.IncrementCounterBy name v labels =
        (c, .goError ("counter metric '" ++ name ++ "' not found"))) ∧
    ((¬ ∃ m ∈ cfg.Metrics, m.Name = name ∧ m.Typ = MetricTypeHistogram) →
      c.ObserveHistogram name v labels =
        (c, .goError ("histogram metric '" ++ name ++ "' not found"))) ∧
    ((¬ ∃ m ∈ cfg.Metrics, m.Name = name ∧ m.Typ = MetricTypeSummary) →
      c.ObserveSummary name v labels =
        (c, .goError ("summary metric '" ++ name ++ "' not found"))) := by
  obtain ⟨-, hg, hc, hh, hs, -⟩ := NewMetricCollector_facts cfg r c hb
  refine ⟨?_, ?_, ?_, ?_⟩
  · intro hno
    cases hl : lookupAssoc c.gauges name with
    | none => simp [MetricCollector.UpdateGauge, hl]
    | some vec =>
        obtain ⟨m, hm, h1, h2, -, -⟩ := hg name vec hl
        exact absurd ⟨m, hm, h1, h2⟩ hno
  · intro hno
    cases hl : lookupAssoc c.counters name with
    | none => simp [MetricCollector.IncrementCounterBy, hl]
    | some vec =>
        obtain ⟨m, hm, h1, h2, -, -⟩ := hc name vec hl
        exact absurd ⟨m, hm, h1, h2⟩ hno
  · intro hno
    cases hl : lookupAssoc c.histograms name with
    | none => simp [MetricCollector.ObserveHistogram, hl]
    | some vec =>
        obtain ⟨m, hm, h1, h2, -, -⟩ := hh name vec hl
        exact absurd ⟨m, hm, h1, h2⟩ hno
  · intro hno
    cases hl : lookupAssoc c.summaries name with
    | none => simp [MetricCollector.ObserveSummary, hl]
    | some vec =>
        obtain ⟨m, hm, h1, h2, -, -, -⟩ := hs name vec hl
        exact absurd ⟨m, hm, h1, h2⟩ hno

theorem isSome_lookupAssoc_insertAssoc_of_present {κ α : Type} [DecidableEq κ]
    (l : List (κ × α)) (k : κ) (v w : α) (hk : lookupAssoc l k = some w) (name : κ) :
    (lookupAssoc (insertAssoc l k v) name).isSome = (lookupAssoc l name).isSome := by
  rw [lookupAssoc_insertAssoc]
  by_cases h : name = k
  · subst h; rw [if_pos rfl, hk]; rfl
  · rw [if_neg h]

theorem applyUpdate_preserves (c : MetricCollector) (u : UpdateReq) :
    ((c.applyUpdate u).1).config = c.config ∧
    ∀ name,
      (lookupAssoc ((c.applyUpdate u).1).gauges name).isSome =
        (lookupAssoc c.gauges name).isSome ∧
      (lookupAssoc ((c.applyUpdate u).1).counters name).isSome =
        (lookupAssoc c.counters name).isSome ∧
      (lookupAssoc ((c.applyUpdate u).1).histograms name).isSome =
        (lookupAssoc c.histograms name).isSome ∧
      (lookupAssoc ((c.applyUpdate u).1).summaries name).isSome =
        (lookupAssoc c.summaries name).isSome := by
  cases u with
  | gauge n v l =>
      simp only [MetricCollector.applyUpdate, MetricCollector.UpdateGauge]
      cases hl : lookupAssoc c.gauges n with
      | none => exact ⟨rfl, fun name => ⟨rfl, rfl, rfl, rfl⟩⟩
      | some g =>
          cases hcl : c.cleanLabels n l with
          | error e => exact ⟨rfl, fun name => ⟨rfl, rfl, rfl, rfl⟩⟩
          | ok lwf =>
              exact ⟨rfl, fun name =>
                ⟨isSome_lookupAssoc_insertAssoc_of_present c.gauges n _ g hl name,
                 rfl, rfl, rfl⟩⟩
  | counter n v l =>
      simp only [MetricCollector.applyUpdate, MetricCollector.IncrementCounterBy]
      cases hl : lookupAssoc c.counters n with
      | none => exact ⟨rfl, fun name => ⟨rfl, rfl, rfl, rfl⟩⟩
      | some g =>
          cases hcl : c.cleanLabels n l with
          | error e => exact ⟨rfl, fun name => ⟨rfl, rfl, rfl, rfl⟩⟩
          | ok lwf =>
              by_cases hv : v < 0 <;>
                exact ⟨by simp [hv], fun name => ⟨by simp [hv],
                  by simp [hv, isSome_lookupAssoc_insertAssoc_of_present c.counters n _ g hl],
                  by simp [hv], by simp [hv]⟩⟩
  | histogram n v l =>
      simp only [MetricCollector.applyUpdate, MetricCollector.ObserveHistogram]
      cases hl : lookupAssoc c.histograms n with
      | none => exact ⟨rfl, fun name => ⟨rfl, rfl, rfl, rfl⟩⟩
      | some g =>
          cases hcl : c.cleanLabels n l with
          | error e => exact ⟨rfl, fun name => ⟨rfl, rfl, rfl, rfl⟩⟩
          | ok lwf =>
              exact ⟨rfl, fun name =>
                ⟨rfl, rfl,
                 isSome_lookupAssoc_insertAssoc_of_present c.histograms n _ g hl name,
                 rfl⟩⟩
  | summary n v l =>
      simp only [MetricCollector.applyUpdate, MetricCollector.ObserveSummary]
      cases hl : lookupAssoc c.summaries n with
      | none => exact ⟨rfl, fun name => ⟨rfl, rfl, rfl, rfl⟩⟩
      | some g =>
          cases hcl : c.cleanLabels n l with
          | error e => exact ⟨rfl, fun name => ⟨rfl, rfl, rfl, rfl⟩⟩
          | ok lwf =>
              exact ⟨rfl, fun name =>
                ⟨rfl, rfl, rfl,
                 isSome_lookupAssoc_insertAssoc_of_present c.summaries n _ g hl name⟩⟩

theorem applyUpdates_preserves (us : List UpdateReq) :
    ∀ (c : MetricCollector),
    ((c.applyUpdates us).config = c.config) ∧
    ∀ name,
      (lookupAssoc (c.applyUpdates us).gauges name).isSome =
        (lookupAssoc c.gauges name).isSome ∧
      (lookupAssoc (c.applyUpdates us).counters name).isSome =
        (lookupAssoc c.counters name).isSome ∧
      (lookupAssoc (c.applyUpdates us).histograms name).isSome =
        (lookupAssoc c.histograms name).isSome ∧
      (lookupAssoc (c.applyUpdates us).summaries name).isSome =
        (lookupAssoc c.summaries name).isSome := by
  induction us with
  | nil => intro c; exact ⟨rfl, fun name => ⟨rfl, rfl, rfl, rfl⟩⟩
  | cons u rest ih =>
      intro c
      have hstep := applyUpdate_preserves c u
      have htail := ih ((c.applyUpdate u).1)
      refine ⟨htail.1.trans hstep.1, fun name => ?_⟩
      obtain ⟨g1, c1, h1, s1⟩ := hstep.2 name
      obtain ⟨g2, c2, h2, s2⟩ := htail.2 name
      exact ⟨g2.trans g1, c2.trans c1, h2.trans h1, s2.trans s1⟩

/-- C9 (confirmed): on any collector built by `NewMetricCollector` and after
any sequence of updates, every name keyed in one of the four kind maps occurs
as a definition name in the configuration's metric list; consequently, once a
kind-map lookup succeeds inside an update operation, `cleanLabels` always
succeeds — its metric-not-found branch is unreachable from there. -/
theorem registered_names_from_config (cfg : Config) (r : Registry) (c : MetricCollector)
    (us : List UpdateReq) (hb : NewMetricCollector cfg r = .ok c) :
    (∀ name,
      ((lookupAssoc (c.applyUpdates us).gauges name).isSome = true ∨
       (lookupAssoc (c.applyUpdates us).counters name).isSome = true ∨
       (lookupAssoc (c.applyUpdates us).histograms name).isSome = true ∨
       (lookupAssoc (c.applyUpdates us).summaries name).isSome = true) →
      memStr (cfg.Metrics.map (fun m => m.Name)) name = true) ∧
    (∀ name labels,
      ((lookupAssoc (c.applyUpdates us).gauges name).isSome = true ∨
       (lookupAssoc (c.applyUpdates us).counters name).isSome = true ∨
       (lookupAssoc (c.applyUpdates us).histograms name).isSome = true ∨
       (lookupAssoc (c.applyUpdates us).summaries name).isSome = true) →
      (((c.applyUpdates us).cleanLabels name labels).isOk = true)) := by
  obtain ⟨hcfg, hg, hc, hh, hs, -⟩ := NewMetricCollector_facts cfg r c hb
  have hpres := applyUpdates_preserves us c
  have hmem : ∀ name,
      ((lookupAssoc (c.applyUpdates us).gauges name).isSome = true ∨
       (lookupAssoc (c.applyUpdates us).counters name).isSome = true ∨
       (lookupAssoc (c.applyUpdates us).histograms name).isSome = true ∨
       (lookupAssoc (c.applyUpdates us).summaries name).isSome = true) →
      ∃ m ∈ cfg.Metrics, m.Name = name := by
    intro name hdisj
    obtain ⟨pg, pc, ph, ps⟩ := hpres.2 name
    rcases hdisj with hx | hx | hx | hx
    · rw [pg] at hx
      cases hl : lookupAssoc c.gauges name with
      | none => rw [hl] at hx; cases hx
      | some vec =>
          obtain ⟨m, hm, h1, -⟩ := hg name vec hl
          exact ⟨m, hm, h1⟩
    · rw [pc] at hx
      cases hl : lookupAssoc c.counters name with
      | none => rw [hl] at hx; cases hx
      | some vec =>
          obtain ⟨m, hm, h1, -⟩ := hc name vec hl
          exact ⟨m, hm, h1⟩
    · rw [ph] at hx
      cases hl : lookupAssoc c.histograms name with
      | none => rw [hl] at hx; cases hx
      | some vec =>
          obtain ⟨m, hm, h1, -⟩ := hh name vec hl
          exact ⟨m, hm, h1⟩
    · rw [ps] at hx
      cases hl : lookupAssoc c.summaries name with
      | none => rw [hl] at hx; cases hx
      | some vec =>
          obtain ⟨m, hm, h1, -⟩ := hs name vec hl
          exact ⟨m, hm, h1⟩
  refine ⟨?_, ?_⟩
  · intro name hdisj
    obtain ⟨m, hm, h1⟩ := hmem name hdisj
    rw [memStr_iff]
    exact List.mem_map.mpr ⟨m, hm, h1⟩
  · intro name labels hdisj
    obtain ⟨m, hm, h1⟩ := hmem name hdisj
    have hcfg2 : (c.applyUpdates us).config = cfg := hpres.1.trans hcfg
    obtain ⟨metricCfg, hf⟩ := findMetric_isSome_of_mem cfg.Metrics name ⟨m, hm, h1⟩
    simp [MetricCollector.cleanLabels, cleanLabelsCore, hcfg2, hf, Except.isOk, Except.toBool]

theorem IncrementCounterBy_ok_eq (c : MetricCollector) (n : String) (v : Rat)
    (l : LabelMap) (g : CounterVec) (lwf : LabelMap)
    (hl : lookupAssoc c.counters n = some g) (hcl : c.cleanLabels n l = .ok lwf)
    (hv : 0 ≤ v) :
    c.IncrementCounterBy n v l =
      (counterAfterAdd c n g (comboOf g.labelNames lwf)
        ((lookupAssoc g.data (comboOf g.labelNames lwf)).getD 0 + v), .ok) := by
  have hv' : ¬ v < 0 := not_lt.mpr hv
  simp [MetricCollector.IncrementCounterBy, hl, hcl, hv', counterAfterAdd]

theorem counter_seq_accumulates (name : String) (labels : LabelMap) :
    ∀ (ds : List Rat) (c : MetricCollector) (g : CounterVec) (lwf : LabelMap),
    lookupAssoc c.counters name = some g →
    c.cleanLabels name labels = .ok lwf →
    (∀ d ∈ ds, 0 ≤ d) →
    c.updateResults (counterReqs name labels ds) = ds.map (fun _ => GoResult.ok) ∧
    ∃ g', lookupAssoc (c.applyUpdates (counterReqs name labels ds)).counters name = some g' ∧
      g'.labelNames = g.labelNames ∧
      (lookupAssoc g'.data (comboOf g.labelNames lwf)).getD 0 =
        (lookupAssoc g.data (comboOf g.labelNames lwf)).getD 0 + ds.sum := by
  intro ds
  induction ds with
  | nil =>
      intro c g lwf hl hcl hnn
      refine ⟨rfl, g, hl, rfl, ?_⟩
      simp
  | cons d rest ih =>
      intro c g lwf hl hcl hnn
      have hv : 0 ≤ d := hnn d (List.mem_cons_self d rest)
      have happ : c.applyUpdate (UpdateReq.counter name d labels) =
          (counterAfterAdd c name g (comboOf g.labelNames lwf)
            ((lookupAssoc g.data (comboOf g.labelNames lwf)).getD 0 + d), .ok) :=
        IncrementCounterBy_ok_eq c name d labels g lwf hl hcl hv
      have hl1 : lookupAssoc (counterAfterAdd c name g (comboOf g.labelNames lwf)
            ((lookupAssoc g.data (comboOf g.labelNames lwf)).getD 0 + d)).counters name =
          some (bumpCounterVec g (comboOf g.labelNames lwf) d) := by
        show lookupAssoc (insertAssoc c.counters name
          (bumpCounterVec g (comboOf g.labelNames lwf) d)) name = _
        rw [lookupAssoc_insertAssoc, if_pos rfl]
      have hcl1 : (counterAfterAdd c name g (comboOf g.labelNames lwf)
            ((lookupAssoc g.data (comboOf g.labelNames lwf)).getD 0 + d)).cleanLabels
            name labels = .ok lwf := hcl
      have hnn1 : ∀ d' ∈ rest, 0 ≤ d' := fun d' hd' => hnn d' (List.mem_cons_of_mem d hd')
      obtain ⟨hres, g2, hlg2, hln2, hsum2⟩ := ih _ _ lwf hl1 hcl1 hnn1
      constructor
      · show (c.applyUpdate (UpdateReq.counter name d labels)).2 ::
            ((c.applyUpdate (UpdateReq.counter name d labels)).1).updateResults
              (counterReqs name labels rest) = _
        rw [happ]
        simp only [List.map_cons]
        exact congrArg (fun x => GoResult.ok :: x) hres
      · refine ⟨g2, ?_, by rw [hln2]; rfl, ?_⟩
        · show lookupAssoc ((c.applyUpdate
              (UpdateReq.counter name d labels)).1.applyUpdates
              (counterReqs name labels rest)).counters name = some g2
          rw [happ]
          exact hlg2
        · have hcombo : comboOf (bumpCounterVec g (comboOf g.labelNames lwf) d).labelNames
              lwf = comboOf g.labelNames lwf := rfl
          rw [hcombo] at hsum2
          have hstored : (lookupAssoc (bumpCounterVec g (comboOf g.labelNames lwf) d).data
              (comboOf g.labelNames lwf)).getD 0 =
              (lookupAssoc g.data (comboOf g.labelNames lwf)).getD 0 + d := by
            show (lookupAssoc (insertAssoc g.data _ _) _).getD 0 = _
            rw [lookupAssoc_insertAssoc, if_pos rfl]
            rfl
          rw [hsum2, hstored, List.sum_cons]
          ring

/-- C4 (confirmed): on a freshly built collector, a finite sequence of counter
increments with non-negative deltas against the same registered counter and
the same label map all succeed, and the accumulated value stored for that
label combination equals the sum of the deltas (the combination starts from
its initial zero state). -/
theorem counter_accumulates_sum (cfg : Config) (r : Registry) (c : MetricCollector)
    (name : String) (labels : LabelMap) (ds : List Rat)
    (hb : NewMetricCollector cfg r = .ok c)
    (hreg : (lookupAssoc c.counters name).isSome = true)
    (hnn : ∀ d ∈ ds, 0 ≤ d) :
    c.updateResults (counterReqs name labels ds) = ds.map (fun _ => GoResult.ok) ∧
    storedCounter (c.applyUpdates (counterReqs name labels ds)) name
      (counterComboFor c name labels) = ds.sum := by
  obtain ⟨hcfg, -, hc, -, -, -⟩ := NewMetricCollector_facts cfg r c hb
  cases hl : lookupAssoc c.counters name with
  | none => rw [hl] at hreg; cases hreg
  | some g =>
      obtain ⟨m, hm, hname, -, -, hdata⟩ := hc name g hl
      obtain ⟨metricCfg, hf⟩ := findMetric_isSome_of_mem c.config.Metrics name
        (by rw [hcfg]; exact ⟨m, hm, hname⟩)
      have hcl : c.cleanLabels name labels =
          .ok (removeExtra metricCfg.Labels (fillMissing metricCfg.Labels labels)) := by
        simp [MetricCollector.cleanLabels, cleanLabelsCore, hf]
      obtain ⟨hres, g2, hlg2, -, hsum⟩ :=
        counter_seq_accumulates name labels ds c g _ hl hcl hnn
      refine ⟨hres, ?_⟩
      have hfor : counterComboFor c name labels =
          comboOf g.labelNames (removeExtra metricCfg.Labels
            (fillMissing metricCfg.Labels labels)) := by
        simp [counterComboFor, hl, hcl]
      rw [hfor, storedCounter, hlg2]
      show (lookupAssoc g2.data (comboOf g.labelNames (removeExtra metricCfg.Labels
        (fillMissing metricCfg.Labels labels)))).getD 0 = ds.sum
      rw [hsum, hdata]
      simp [lookupAssoc]

/-- C7 (amended): `IncrementCounterBy` on a built collector returns success
for every non-negative delta and returns the not-found input-validation error
for an unregistered name; but a negative delta against a registered counter
reaches the underlying counter aggregation, which panics with "counter cannot
decrease in value" instead of returning success. -/
theorem counter_delta_behavior (cfg : Config) (r : Registry) (c : MetricCollector)
    (name : String) (v : Rat) (labels : LabelMap)
    (hb : NewMetricCollector cfg r = .ok c) :
    (lookupAssoc c.counters name = none →
      c.IncrementCounterBy name v labels =
        (c, .goError ("counter metric '" ++ name ++ "' not found"))) ∧
    ((lookupAssoc c.counters name).isSome = true → 0 ≤ v →
      (c.IncrementCounterBy name v labels).2 = .ok) ∧
    ((lookupAssoc c.counters name).isSome = true → v < 0 →
      (c.IncrementCounterBy name v labels).2 =
        .panicked "counter cannot decrease in value") := by
  obtain ⟨hcfg, -, hc, -, -, -⟩ := NewMetricCollector_facts cfg r c hb
  refine ⟨?_, ?_, ?_⟩
  · intro hnone
    simp [MetricCollector.IncrementCounterBy, hnone]
  · intro hsome hv
    cases hl : lookupAssoc c.counters name with
    | none => rw [hl] at hsome; cases hsome
    | some g =>
        obtain ⟨m, hm, hname, -, -, -⟩ := hc name g hl
        obtain ⟨metricCfg, hf⟩ := findMetric_isSome_of_mem c.config.Metrics name
          (by rw [hcfg]; exact ⟨m, hm, hname⟩)
        have hcl : c.cleanLabels name labels =
            .ok (removeExtra metricCfg.Labels (fillMissing metricCfg.Labels labels)) := by
          simp [MetricCollector.cleanLabels, cleanLabelsCore, hf]
        rw [IncrementCounterBy_ok_eq c name v labels g _ hl hcl hv]
  · intro hsome hv
    cases hl : lookupAssoc c.counters name with
    | none => rw [hl] at hsome; cases hsome
    | some g =>
        obtain ⟨m, hm, hname, -, -, -⟩ := hc name g hl
        obtain ⟨metricCfg, hf⟩ := findMetric_isSome_of_mem c.config.Metrics name
          (by rw [hcfg]; exact ⟨m, hm, hname⟩)
        have hcl : c.cleanLabels name labels =
            .ok (removeExtra metricCfg.Labels (fillMissing metricCfg.Labels labels)) := by
          simp [MetricCollector.cleanLabels, cleanLabelsCore, hf]
        simp [MetricCollector.IncrementCounterBy, hl, hcl, hv]

/-- C5 (amended): registry build keys every aggregation by the raw definition
name — each configured definition's vector is stored (and looked up) in the
kind map of its kind under the raw name, and nothing is keyed under any name
that is not a raw configured name.  No sanitization is applied in the live
registration path; `sanitizeMetricName` exists only in the unused metric
factory. -/
theorem raw_name_keying (cfg : Config) (r : Registry) (c : MetricCollector)
    (hb : NewMetricCollector cfg r = .ok c) :
    (∀ m ∈ cfg.Metrics,
      (m.Typ = MetricTypeGauge → (lookupAssoc c.gauges m.Name).isSome = true) ∧
      (m.Typ = MetricTypeCounter → (lookupAssoc c.counters m.Name).isSome = true) ∧
      (m.Typ = MetricTypeHistogram → (lookupAssoc c.histograms m.Name).isSome = true) ∧
      (m.Typ = MetricTypeSummary → (lookupAssoc c.summaries m.Name).isSome = true)) ∧
    (∀ name,
      ((lookupAssoc c.gauges name).isSome = true ∨
       (lookupAssoc c.counters name).isSome = true ∨
       (lookupAssoc c.histograms name).isSome = true ∨
       (lookupAssoc c.summaries name).isSome = true) →
      memStr (cfg.Metrics.map (fun m => m.Name)) name = true) := by
  obtain ⟨-, hg, hc, hh, hs, hcomp⟩ := NewMetricCollector_facts cfg r c hb
  refine ⟨hcomp, ?_⟩
  intro name hdisj
  rw [memStr_iff]
  rcases hdisj with hx | hx | hx | hx
  · cases hl : lookupAssoc c.gauges name with
    | none => rw [hl] at hx; cases hx
    | some vec =>
        obtain ⟨m, hm, h1, -⟩ := hg name vec hl
        exact List.mem_map.mpr ⟨m, hm, h1⟩
  · cases hl : lookupAssoc c.counters name with
    | none => rw [hl] at hx; cases hx
    | some vec =>
        obtain ⟨m, hm, h1, -⟩ := hc name vec hl
        exact List.mem_map.mpr ⟨m, hm, h1⟩
  · cases hl : lookupAssoc c.histograms name with
    | none => rw [hl] at hx; cases hx
    | some vec =>
        obtain ⟨m, hm, h1, -⟩ := hh name vec hl
        exact List.mem_map.mpr ⟨m, hm, h1⟩
  · cases hl : lookupAssoc c.summaries name with
    | none => rw [hl] at hx; cases hx
    | some vec =>
        obtain ⟨m, hm, h1, -⟩ := hs name vec hl
        exact List.mem_map.mpr ⟨m, hm, h1⟩

/-- C6 (amended): a Summary definition whose objectives mapping is empty
(absent) is rejected by validation — never accepted — and the live
registration path applies no default objectives: the summary vector of a
built collector carries exactly the objectives of its configured definition.
The default mapping exists only in the unused metric factory. -/
theorem summary_objectives_required :
    (∀ m : MetricConfig, m.Typ = MetricTypeSummary → m.Objectives = [] →
      m.Validate ≠ .ok ()) ∧
    (∀ m : MetricConfig, m.Typ = MetricTypeSummary → m.Objectives = [] → m.Name ≠ "" →
      m.Validate = .error ("summary metric '" ++ m.Name ++ "' must define objectives")) ∧
    (∀ cfg r c, NewMetricCollector cfg r = .ok c →
      ∀ name vec, lookupAssoc c.summaries name = some vec →
        ∃ m ∈ cfg.Metrics, m.Name = name ∧ vec.objectives = m.Objectives) := by
  have key : ∀ m : MetricConfig, m.Typ = MetricTypeSummary → m.Objectives = [] →
      m.Name ≠ "" →
      m.Validate = .error ("summary metric '" ++ m.Name ++ "' must define objectives") := by
    intro m hty hobj hname
    have h1 : ¬ (m.Typ = MetricTypeGauge ∨ m.Typ = MetricTypeCounter) := by
      rw [hty]; rintro (h | h) <;> exact absurd h (by decide)
    have h2 : m.Typ ≠ MetricTypeHistogram := by rw [hty]; decide
    simp [MetricConfig.Validate, hname, h1, h2, hty, hobj,
      MetricTypeGauge, MetricTypeCounter, MetricTypeHistogram, MetricTypeSummary]
  refine ⟨?_, key, ?_⟩
  · intro m hty hobj
    by_cases hname : m.Name = ""
    · simp [MetricConfig.Validate, hname]
    · rw [key m hty hobj hname]
      simp
  · intro cfg r c hb name vec hl
    obtain ⟨-, -, -, -, hs, -⟩ := NewMetricCollector_facts cfg r c hb
    obtain ⟨m, hm, h1, -, -, hobj, -⟩ := hs name vec hl
    exact ⟨m, hm, h1, hobj⟩

/-- The example collector builds from the example configuration. -/
theorem exCollector_build : NewMetricCollector exConfig exRegistry = .ok exCollector := by
  rfl

/-- The colon-named example collector builds. -/
theorem exCollectorColon_build :
    NewMetricCollector exConfigColon exRegistry = .ok exCollectorColon := by
  rfl

/-- C5 (counterexample): with raw name `"job:a"` the build succeeds and the
aggregation is stored under the raw name, not under the sanitized name
`"job_a"` — looking it up under the sanitized form fails. -/
theorem raw_name_keying_cex :
    sanitizeMetricName "job:a" = "job_a" ∧
    (NewMetricCollector exConfigColon exRegistry).map
      (fun c => ((lookupAssoc c.gauges "job:a").isSome, lookupAssoc c.gauges "job_a")) =
      .ok (true, none) ∧
    (NewMetricCollector exConfigColon exRegistry).map
      (fun c => (c.UpdateGauge "job_a" 1 []).2) =
      .ok (.goError "gauge metric 'job_a' not found") := by
  refine ⟨?_, ?_, ?_⟩ <;> rfl

/-- C6 (counterexample): a summary definition with an empty objectives map is
rejected by validation, and the registration path passes the empty objectives
through — it does not substitute the factory's default objectives. -/
theorem summary_objectives_required_cex :
    MetricConfig.Validate summaryNoObjectives =
      .error "summary metric 's' must define objectives" ∧
    validateMetricList [summaryNoObjectives] =
      .error "summary metric 's' must define objectives" ∧
    (NewMetricCollector exConfigSummary exRegistry).map
      (fun c => (lookupAssoc c.summaries "s").map (fun v => v.objectives)) =
      .ok (some []) ∧
    defaultObjectives ≠ [] := by
  refine ⟨rfl, rfl, rfl, by decide⟩

/-- C7 (counterexample): a negative delta against a registered counter does
not return success — the underlying counter panics. -/
theorem counter_negative_delta_panics_cex :
    (NewMetricCollector exConfig exRegistry).map
      (fun c => (c.IncrementCounterBy "job_failures_total" (-1)
        [("job_name", "x"), ("environment", "prod"), ("error_type", "timeout")]).2) =
      .ok (.panicked "counter cannot decrease in value") := by
  rfl

/-- Witness for C1 at concrete inputs from the shipped configuration. -/
theorem cleanLabels_normalizes_witness :
    exCollector.cleanLabels "unknown_metric" [] =
      .error "metric 'unknown_metric' not found" ∧
    (exCollector.cleanLabels "job_last_success"
      [("job_name", "backup"), ("extra", "x")]).isOk = true :=
  ⟨(cleanLabels_normalizes exCollector "unknown_metric" []).1 (by decide),
   (cleanLabels_normalizes exCollector "job_last_success"
      [("job_name", "backup"), ("extra", "x")]).2.1 (by decide)⟩

/-- Witness for C2: concrete cross-kind and unknown-name lookups all report
the kind-specific not-found error and leave the collector unchanged. -/
theorem update_kind_checked_not_found_witness :
    exCollector.UpdateGauge "job_failures_total" 1 [] =
      (exCollector, .goError "gauge metric 'job_failures_total' not found") ∧
    exCollector.IncrementCounterBy "job_last_success" 1 [] =
      (exCollector, .goError "counter metric 'job_last_success' not found") ∧
    exCollector.ObserveHistogram "unknown_metric" 1 [] =
      (exCollector, .goError "histogram metric 'unknown_metric' not found") ∧
    exCollector.ObserveSummary "unknown_metric" 1 [] =
      (exCollector, .goError "summary metric 'unknown_metric' not found") :=
  ⟨(update_kind_checked_not_found exConfig exRegistry exCollector
      "job_failures_total" 1 [] exCollector_build).1 (by decide),
   (update_kind_checked_not_found exConfig exRegistry exCollector
      "job_last_success" 1 [] exCollector_build).2.1 (by decide),
   (update_kind_checked_not_found exConfig exRegistry exCollector
      "unknown_metric" 1 [] exCollector_build).2.2.1 (by decide),
   (update_kind_checked_not_found exConfig exRegistry exCollector
      "unknown_metric" 1 [] exCollector_build).2.2.2 (by decide)⟩

/-- Witness for C3: the shipped metric list validates, and a duplicated name
is reported with the duplicate-name error. -/
theorem validateMetricList_characterization_witness :
    validateMetricList [exMetricGauge, exMetricCounter] = .ok () ∧
    validateMetricList exMetricsDup = .error "duplicate metric name: job_last_success" :=
  ⟨(validateMetricList_characterization [exMetricGauge, exMetricCounter]).1.mpr (by decide),
   (validateMetricList_characterization exMetricsDup).2.1 1
      "duplicate metric name: job_last_success" (by decide) (by decide) (by decide)⟩

/-- Witness for C4: two increments of 2 and 3 accumulate to 5. -/
theorem counter_accumulates_sum_witness :
    exCollector.updateResults
      (counterReqs "job_failures_total" [("job_name", "x")] [2, 3]) =
      ([2, 3] : List Rat).map (fun _ => GoResult.ok) ∧
    storedCounter (exCollector.applyUpdates
        (counterReqs "job_failures_total" [("job_name", "x")] [2, 3]))
      "job_failures_total"
      (counterComboFor exCollector "job_failures_total" [("job_name", "x")]) =
      ([2, 3] : List Rat).sum :=
  counter_accumulates_sum exConfig exRegistry exCollector "job_failures_total"
    [("job_name", "x")] [2, 3] exCollector_build (by decide) (by decide)

/-- Witness for C7 (amended): unknown name errors, non-negative delta
succeeds, negative delta panics. -/
theorem counter_delta_behavior_witness :
    exCollector.IncrementCounterBy "unknown_metric" 1 [] =
      (exCollector, .goError "counter metric 'unknown_metric' not found") ∧
    (exCollector.IncrementCounterBy "job_failures_total" 2 []).2 = .ok ∧
    (exCollector.IncrementCounterBy "job_failures_total" (-2) []).2 =
      .panicked "counter cannot decrease in value" :=
  ⟨(counter_delta_behavior exConfig exRegistry exCollector "unknown_metric" 1 []
      exCollector_build).1 (by decide),
   (counter_delta_behavior exConfig exRegistry exCollector "job_failures_total" 2 []
      exCollector_build).2.1 (by decide) (by decide),
   (counter_delta_behavior exConfig exRegistry exCollector "job_failures_total" (-2) []
      exCollector_build).2.2 (by decide) (by decide)⟩

/-- Witness for C5 (amended): the colon-named gauge is keyed under its raw
name. -/
theorem raw_name_keying_witness :
    (lookupAssoc exCollectorColon.gauges "job:a").isSome = true ∧
    memStr (exConfigColon.Metrics.map (fun m => m.Name)) "job:a" = true :=
  ⟨((raw_name_keying exConfigColon exRegistry exCollectorColon
      exCollectorColon_build).1 exMetricColon (by decide)).1 (by decide),
   (raw_name_keying exConfigColon exRegistry exCollectorColon
      exCollectorColon_build).2 "job:a" (Or.inl (by decide))⟩

/-- Witness for C6 (amended): the objective-less summary definition is
rejected by validation. -/
theorem summary_objectives_required_witness :
    summaryNoObjectives.Validate ≠ .ok () ∧
    summaryNoObjectives.Validate = .error "summary metric 's' must define objectives" :=
  ⟨summary_objectives_required.1 summaryNoObjectives rfl rfl,
   summary_objectives_required.2.1 summaryNoObjectives rfl rfl (by decide)⟩

/-- Witness for C9: a registered counter's name occurs in the configuration
and its `cleanLabels` succeeds. -/
theorem registered_names_from_config_witness :
    memStr (exConfig.Metrics.map (fun m => m.Name)) "job_failures_total" = true ∧
    ((exCollector.applyUpdates []).cleanLabels "job_failures_total" []).isOk = true :=
  ⟨(registered_names_from_config exConfig exRegistry exCollector [] exCollector_build).1
      "job_failures_total" (Or.inr (Or.inl (by decide))),
   (registered_names_from_config exConfig exRegistry exCollector [] exCollector_build).2
      "job_failures_total" [] (Or.inr (Or.inl (by decide)))⟩

theorem collectorObs_eq_of_CollObsEq (c1 c2 : MetricCollector) (h : CollObsEq c1 c2) :
    collectorObs c1 = collectorObs c2 := by
  obtain ⟨h1, h2, h3, h4, h5⟩ := h
  simp [collectorObs, h1, h2, h3, h4, h5]

theorem registerMetric_rel (c1 c2 : MetricCollector) (m1 m2 : MetricConfig)
    (hns : c1.config.Global.Namespace = c2.config.Global.Namespace)
    (hobs : CollObsEq c1 c2) (hm : MetricRel m1 m2) :
    ExceptRel (c1.registerMetric m1) (c2.registerMetric m2) := by
  obtain ⟨hN, hD, hT, hL, hB, hO, -⟩ := hm
  obtain ⟨hr, hg, hc, hh, hs⟩ := hobs
  simp only [MetricCollector.registerMetric, ← hN, ← hD, ← hT, ← hL, ← hB, ← hO,
    ← hns, ← hr, ← hg, ← hc, ← hh, ← hs]
  by_cases ht : m1.Typ = MetricTypeGauge
  · rw [if_pos ht, if_pos ht]
    cases hreg : c1.registry.register (buildFQName c1.config.Global.Namespace m1.Name) with
    | error e => exact rfl
    | ok reg => exact ⟨rfl, rfl, rfl, rfl, rfl⟩
  · rw [if_neg ht, if_neg ht]
    by_cases ht2 : m1.Typ = MetricTypeCounter
    · rw [if_pos ht2, if_pos ht2]
      cases hreg : c1.registry.register (buildFQName c1.config.Global.Namespace m1.Name) with
      | error e => exact rfl
      | ok reg => exact ⟨rfl, rfl, rfl, rfl, rfl⟩
    · rw [if_neg ht2, if_neg ht2]
      by_cases ht3 : m1.Typ = MetricTypeHistogram
      · rw [if_pos ht3, if_pos ht3]
        cases hreg : c1.registry.register (buildFQName c1.config.Global.Namespace m1.Name) with
        | error e => exact rfl
        | ok reg => exact ⟨rfl, rfl, rfl, rfl, rfl⟩
      · rw [if_neg ht3, if_neg ht3]
        by_cases ht4 : m1.Typ = MetricTypeSummary
        · rw [if_pos ht4, if_pos ht4]
          cases hreg : c1.registry.register (buildFQName c1.config.Global.Namespace m1.Name) with
          | error e => exact rfl
          | ok reg => exact ⟨rfl, rfl, rfl, rfl, rfl⟩
        · rw [if_neg ht4, if_neg ht4]
          exact rfl

theorem registerMetricsAux_rel (ms1 ms2 : List MetricConfig)
    (hrel : List.Forall₂ MetricRel ms1 ms2) :
    ∀ (c1 c2 : MetricCollector),
    c1.config.Global.Namespace = c2.config.Global.Namespace →
    CollObsEq c1 c2 →
    ExceptRel (registerMetricsAux c1 ms1) (registerMetricsAux c2 ms2) := by
  induction hrel with
  | nil =>
      intro c1 c2 hns hobs
      exact hobs
  | cons hm hrest ih =>
      intro c1 c2 hns hobs
      have hstep := registerMetric_rel c1 c2 _ _ hns hobs hm
      simp only [registerMetricsAux]
      cases h1 : c1.registerMetric _ with
      | error e1 =>
          cases h2 : c2.registerMetric _ with
          | error e2 =>
              rw [h1, h2] at hstep
              exact hstep
          | ok d2 =>
              rw [h1, h2] at hstep
              cases hstep
      | ok d1 =>
          cases h2 : c2.registerMetric _ with
          | error e2 =>
              rw [h1, h2] at hstep
              cases hstep
          | ok d2 =>
              rw [h1, h2] at hstep
              have hcfg1 := (registerMetric_ok c1 _ d1 h1).1
              have hcfg2 := (registerMetric_ok c2 _ d2 h2).1
              exact ih d1 d2 (by rw [hcfg1, hcfg2]; exact hns) hstep

theorem findMetric_rel (ms1 ms2 : List MetricConfig)
    (hrel : List.Forall₂ MetricRel ms1 ms2) (name : String) :
    (findMetric ms1 name = none ∧ findMetric ms2 name = none) ∨
    (∃ m1 m2, findMetric ms1 name = some m1 ∧ findMetric ms2 name = some m2 ∧
      MetricRel m1 m2) := by
  induction hrel with
  | nil => exact Or.inl ⟨rfl, rfl⟩
  | cons hm hrest ih =>
      rename_i m1 m2 t1 t2
      by_cases hn : m1.Name = name
      · refine Or.inr ⟨m1, m2, ?_, ?_, hm⟩
        · simp [findMetric, hn]
        · simp [findMetric, hm.1 ▸ hn]
      · have hn2 : ¬ m2.Name = name := by rw [← hm.1]; exact hn
        rcases ih with ⟨ha, hb⟩ | ⟨w1, w2, ha, hb, hw⟩
        · exact Or.inl ⟨by simp [findMetric, hn, ha], by simp [findMetric, hn2, hb]⟩
        · exact Or.inr ⟨w1, w2, by simp [findMetric, hn, ha], by simp [findMetric, hn2, hb], hw⟩

theorem cleanLabelsCore_rel (ms1 ms2 : List MetricConfig)
    (hrel : List.Forall₂ MetricRel ms1 ms2) (name : String) (labels : LabelMap) :
    cleanLabelsCore ms1 name labels = cleanLabelsCore ms2 name labels := by
  rcases findMetric_rel ms1 ms2 hrel name with ⟨h1, h2⟩ | ⟨m1, m2, h1, h2, hm⟩
  · simp [cleanLabelsCore, h1, h2]
  · simp [cleanLabelsCore, h1, h2, hm.2.2.2.1]

theorem cleanLabels_congr_config (c c' : MetricCollector) (h : c'.config = c.config)
    (name : String) (labels : LabelMap) :
    c'.cleanLabels name labels = c.cleanLabels name labels := by
  simp [MetricCollector.cleanLabels, h]

theorem applyUpdate_rel (c1 c2 : MetricCollector) (u : UpdateReq)
    (hcl : ∀ name labels, c1.cleanLabels name labels = c2.cleanLabels name labels)
    (hobs : CollObsEq c1 c2) :
    (c1.applyUpdate u).2 = (c2.applyUpdate u).2 ∧
    CollObsEq (c1.applyUpdate u).1 (c2.applyUpdate u).1 := by
  obtain ⟨hr, hg, hc, hh, hs⟩ := hobs
  cases u with
  | gauge n v l =>
      have hcleq := hcl n l
      simp only [MetricCollector.applyUpdate, MetricCollector.UpdateGauge, ← hg, ← hcleq]
      cases hlk : lookupAssoc c1.gauges n with
      | none => exact ⟨rfl, hr, hg, hc, hh, hs⟩
      | some g =>
          cases hcr : c1.cleanLabels n l with
          | error e => exact ⟨rfl, hr, hg, hc, hh, hs⟩
          | ok lwf => exact ⟨rfl, hr, rfl, hc, hh, hs⟩
  | counter n v l =>
      have hcleq := hcl n l
      simp only [MetricCollector.applyUpdate, MetricCollector.IncrementCounterBy,
        ← hc, ← hcleq]
      cases hlk : lookupAssoc c1.counters n with
      | none => exact ⟨rfl, hr, hg, hc, hh, hs⟩
      | some g =>
          cases hcr : c1.cleanLabels n l with
          | error e => exact ⟨rfl, hr, hg, hc, hh, hs⟩
          | ok lwf =>
              by_cases hv : v < 0 <;>
                exact ⟨by simp [hv], by simp [hv, hr], by simp [hv, hg],
                  by simp [hv], by simp [hv, hh], by simp [hv, hs]⟩
  | histogram n v l =>
      have hcleq := hcl n l
      simp only [MetricCollector.applyUpdate, MetricCollector.ObserveHistogram,
        ← hh, ← hcleq]
      cases hlk : lookupAssoc c1.histograms n with
      | none => exact ⟨rfl, hr, hg, hc, hh, hs⟩
      | some g =>
          cases hcr : c1.cleanLabels n l with
          | error e => exact ⟨rfl, hr, hg, hc, hh, hs⟩
          | ok lwf => exact ⟨rfl, hr, hg, hc, rfl, hs⟩
  | summary n v l =>
      have hcleq := hcl n l
      simp only [MetricCollector.applyUpdate, MetricCollector.ObserveSummary,
        ← hs, ← hcleq]
      cases hlk : lookupAssoc c1.summaries n with
      | none => exact ⟨rfl, hr, hg, hc, hh, hs⟩
      | some g =>
          cases hcr : c1.cleanLabels n l with
          | error e => exact ⟨rfl, hr, hg, hc, hh, hs⟩
          | ok lwf => exact ⟨rfl, hr, hg, hc, hh, rfl⟩

theorem updates_rel (us : List UpdateReq) :
    ∀ (c1 c2 : MetricCollector),
    (∀ name labels, c1.cleanLabels name labels = c2.cleanLabels name labels) →
    CollObsEq c1 c2 →
    c1.updateResults us = c2.updateResults us ∧
    CollObsEq (c1.applyUpdates us) (c2.applyUpdates us) := by
  induction us with
  | nil => intro c1 c2 hcl hobs; exact ⟨rfl, hobs⟩
  | cons u rest ih =>
      intro c1 c2 hcl hobs
      obtain ⟨hres, hobs'⟩ := applyUpdate_rel c1 c2 u hcl hobs
      have hcl' : ∀ name labels,
          ((c1.applyUpdate u).1).cleanLabels name labels =
          ((c2.applyUpdate u).1).cleanLabels name labels := by
        intro name labels
        rw [cleanLabels_congr_config c1 _ (applyUpdate_preserves c1 u).1 name labels,
          cleanLabels_congr_config c2 _ (applyUpdate_preserves c2 u).1 name labels]
        exact hcl name labels
      obtain ⟨hres', hobs''⟩ := ih _ _ hcl' hobs'
      refine ⟨?_, hobs''⟩
      show (c1.applyUpdate u).2 :: _ = (c2.applyUpdate u).2 :: _
      rw [hres, hres']

/-- C10 (confirmed): a gauge definition's `default_value` has no effect — for
two configurations identical except for the `default_value` of their gauge
definitions, `NewMetricCollector` fails identically or builds collectors with
identical observable registry contents, and every subsequent update sequence
yields identical per-request results, identical registry contents, and
identical exposition text. -/
theorem default_value_no_effect (cfg1 cfg2 : Config) (r : Registry)
    (hrel : ConfigRel cfg1 cfg2) :
    (∀ e, NewMetricCollector cfg1 r = .error e ↔ NewMetricCollector cfg2 r = .error e) ∧
    (∀ c1 c2, NewMetricCollector cfg1 r = .ok c1 → NewMetricCollector cfg2 r = .ok c2 →
      ∀ us, c1.updateResults us = c2.updateResults us ∧
        collectorObs (c1.applyUpdates us) = collectorObs (c2.applyUpdates us) ∧
        expositionText (c1.applyUpdates us) = expositionText (c2.applyUpdates us)) := by
  obtain ⟨hglob, -, hms⟩ := hrel
  have hbase : ExceptRel (NewMetricCollector cfg1 r) (NewMetricCollector cfg2 r) := by
    refine registerMetricsAux_rel cfg1.Metrics cfg2.Metrics hms _ _ ?_ ?_
    · show cfg1.Global.Namespace = cfg2.Global.Namespace
      rw [hglob]
    · exact ⟨rfl, rfl, rfl, rfl, rfl⟩
  constructor
  · intro e
    cases h1 : NewMetricCollector cfg1 r with
    | error e1 =>
        cases h2 : NewMetricCollector cfg2 r with
        | error e2 =>
            rw [h1, h2] at hbase
            have : e1 = e2 := hbase
            subst this
            simp
        | ok d2 =>
            rw [h1, h2] at hbase
            cases hbase
    | ok d1 =>
        cases h2 : NewMetricCollector cfg2 r with
        | error e2 =>
            rw [h1, h2] at hbase
            cases hbase
        | ok d2 =>
            constructor
            · intro hcon; cases hcon
            · intro hcon; cases hcon
  · intro c1 c2 h1 h2 us
    rw [h1, h2] at hbase
    have hobs : CollObsEq c1 c2 := hbase
    have hcl : ∀ name labels, c1.cleanLabels name labels = c2.cleanLabels name labels := by
      intro name labels
      have e1 : c1.config = cfg1 := (NewMetricCollector_facts cfg1 r c1 h1).1
      have e2 : c2.config = cfg2 := (NewMetricCollector_facts cfg2 r c2 h2).1
      show cleanLabelsCore c1.config.Metrics name labels =
        cleanLabelsCore c2.config.Metrics name labels
      rw [e1, e2]
      exact cleanLabelsCore_rel cfg1.Metrics cfg2.Metrics hms name labels
    obtain ⟨hres, hobs'⟩ := updates_rel us c1 c2 hcl hobs
    have hcobs := collectorObs_eq_of_CollObsEq _ _ hobs'
    exact ⟨hres, hcobs, congrArg (fun x => toString (repr x)) hcobs⟩

/-- The alternative-default example collector builds. -/
theorem exCollectorAlt_build :
    NewMetricCollector exConfigAlt exRegistry = .ok exCollectorAlt := by
  rfl

/-- The example configurations differ only in a gauge default_value. -/
theorem exConfig_rel_alt : ConfigRel exConfig exConfigAlt := by
  refine ⟨rfl, rfl, ?_⟩
  refine List.Forall₂.cons ⟨rfl, rfl, rfl, rfl, rfl, rfl, fun h => absurd rfl h⟩ ?_
  exact List.Forall₂.cons ⟨rfl, rfl, rfl, rfl, rfl, rfl, fun _ => rfl⟩ List.Forall₂.nil

/-- Witness for C10: the two collectors built from configurations differing
only in a gauge default_value behave identically on a concrete update. -/
theorem default_value_no_effect_witness :
    exCollector.updateResults
      [UpdateReq.gauge "job_last_success" 1700000000 [("job_name", "backup")]] =
      exCollectorAlt.updateResults
        [UpdateReq.gauge "job_last_success" 1700000000 [("job_name", "backup")]] ∧
    collectorObs (exCollector.applyUpdates
        [UpdateReq.gauge "job_last_success" 1700000000 [("job_name", "backup")]]) =
      collectorObs (exCollectorAlt.applyUpdates
        [UpdateReq.gauge "job_last_success" 1700000000 [("job_name", "backup")]]) ∧
    expositionText (exCollector.applyUpdates
        [UpdateReq.gauge "job_last_success" 1700000000 [("job_name", "backup")]]) =
      expositionText (exCollectorAlt.applyUpdates
        [UpdateReq.gauge "job_last_success" 1700000000 [("job_name", "backup")]]) :=
  (default_value_no_effect exConfig exConfigAlt exRegistry exConfig_rel_alt).2
    exCollector exCollectorAlt exCollector_build exCollectorAlt_build
    [UpdateReq.gauge "job_last_success" 1700000000 [("job_name", "backup")]]

end Cronprom

